import Mathlib

/-!
# LoRa serial driver (`LoRa.c`): protocol engine

A shallow embedding of the driver's module-level state and of the functions
that act on it, followed by theorems about them.

* Bytes (`char`, `uint8_t`) are natural numbers; text is a list of byte values.
* The module's `static` variables are the fields of `LoRa`.
* The transport that `LoRa_hal_uartRead` / `LoRa_hal_uartWrite` talk to is
  explicit: written bytes are appended to `uart_tx`, and the bytes readable at
  each pump step come from a schedule of `Pump` events.
* `lora_rx_isr` is only ever called from `lora_process`; calls of
  `lora_tick_isr` come from outside and are placed between pump steps, which is
  where they can make a difference (the tick touches `_ticker` and `_timeout_f`
  only, and `_timeout_f` is only read at the end of `lora_process`).
* A schedule is a finite list of pump events; after its end the environment is
  quiet, so a wait loop still not ready then never exits (`Stop.hang`).
* Writes past the end of a fixed-size buffer and a copy through a null
  `_rsp_buffer` are undefined in C; the embedding stops there with `Stop.fault`.
* `Log_Debug`, the GPIO lines and the delays are not modelled.
* `ltrim`, `rtrim` and `trim` of `string_utilities.c` work on the bytes from a
  pointer on; `isspace` of the C library is an argument of the embedding.
-/

namespace LoRaDriver

/-- One `char` / `uint8_t` value. Values handled by the driver are below 256. -/
abbrev Byte := Nat

/-- The bytes of a string literal. -/
def lit (t : String) : List Byte := t.toList.map Char.toNat

/-- Carriage return, `'\r'`. -/
def CR : Byte := 13

/-- Line feed, `'\n'`. -/
def LF : Byte := 10

/-- Source: `#define LORA_TIMER_EXPIRED 50000` -/
def LORA_TIMER_EXPIRED : Nat := 50000

/-- Source: `#define LORA_MAX_CMD_SIZE 64` -/
def LORA_MAX_CMD_SIZE : Nat := 64

/-- Source: `#define LORA_MAX_RSP_SIZE 20` -/
def LORA_MAX_RSP_SIZE : Nat := 20

/-- Source: `#define LORA_MAX_DATA_SIZE 256` -/
def LORA_MAX_DATA_SIZE : Nat := 256

/-- Source: `#define LORA_MAX_TRANSFER_SIZE 384` -/
def LORA_MAX_TRANSFER_SIZE : Nat := 384

/-- Source: `#define LORA_MAC_TX "mac tx "` -/
def LORA_MAC_TX : List Byte := lit "mac tx "

/-- Source: `#define LORA_JOIN "mac join "` -/
def LORA_JOIN : List Byte := lit "mac join "

/-- Source: `#define LORA_RADIO_TX "radio tx "` -/
def LORA_RADIO_TX : List Byte := lit "radio tx "

/-- Source: `#define LORA_RADIO_RX "radio rx "` -/
def LORA_RADIO_RX : List Byte := lit "radio rx "

/-- The C string stored at the start of a memory region: the bytes before the
first NUL. -/
def cstr (mem : List Byte) : List Byte := mem.takeWhile (fun b => b != 0)

/-- Why a run of the driver produced no return value. -/
inductive Stop where
  /-- A wait loop spins for ever: the transport stays silent and neither the
  line-ready nor the timeout flag is set. -/
  | hang
  /-- Undefined behaviour in C: a write past the end of `_tx_buffer` or
  `_rx_buffer`, or `strcpy` through a null `_rsp_buffer`. -/
  | fault
  /-- The iteration budget given to the `do ... while` loop ran out. -/
  | fuel
  deriving DecidableEq

/-- The `static` variables of `LoRa.c`, together with the transport's output. -/
structure LoRa where
  /-- Source: `static char _tx_buffer[LORA_MAX_TRANSFER_SIZE]` -/
  _tx_buffer : List Byte
  /-- Source: `static char _rx_buffer[LORA_MAX_TRANSFER_SIZE]` -/
  _rx_buffer : List Byte
  /-- Source: `static uint16_t _rx_buffer_len` -/
  _rx_buffer_len : Nat
  /-- Source: `static bool _timer_f` (timer armed) -/
  _timer_f : Bool
  /-- Source: `static bool _timeout_f` -/
  _timeout_f : Bool
  /-- Source: `static bool _timer_use_f` (timeout policing enabled) -/
  _timer_use_f : Bool
  /-- Source: `static uint32_t _ticker` -/
  _ticker : Nat
  /-- Source: `static uint32_t _timer_max` -/
  _timer_max : Nat
  /-- Source: `static bool _rsp_rdy_f` (line ready) -/
  _rsp_rdy_f : Bool
  /-- Source: `static bool _lora_rdy_f` (engine ready) -/
  _lora_rdy_f : Bool
  /-- Source: `static bool _rsp_f` -/
  _rsp_f : Bool
  /-- Source: `static char* _rsp_buffer`: `none` is the null pointer, `some t` points at
  a caller buffer that currently holds the C string `t`. -/
  _rsp_buffer : Option (List Byte)
  /-- Every byte handed to `LoRa_hal_uartWrite`, oldest first. -/
  uart_tx : List Byte
  deriving DecidableEq

/-- Source: `strcpy(dst, src)` into a fixed-size array `dst`: the string at `src`, then
a NUL, the rest of `dst` untouched. -/
def strcpy (dst src : List Byte) : Except Stop (List Byte) :=
  let t := cstr src
  if t.length + 1 ≤ dst.length then
    .ok (t ++ 0 :: dst.drop (t.length + 1))
  else
    .error .fault

/-- Source: `strcat(dst, src)` into a fixed-size array `dst`: the string at `src` and a
NUL are written from the position of the first NUL of `dst`. -/
def strcat (dst src : List Byte) : Except Stop (List Byte) :=
  let d := cstr dst
  let t := cstr src
  if d.length + t.length + 1 ≤ dst.length then
    .ok (d ++ t ++ 0 :: dst.drop (d.length + t.length + 1))
  else
    .error .fault

/-- Source: `!strcmp(_rx_buffer, text)`: the receive-buffer string is exactly `text`. -/
def rx_is (s : LoRa) (text : String) : Bool := cstr s._rx_buffer == lit text

/-- Source: `static void _lora_resp(void)` -/
def _lora_resp (s : LoRa) : LoRa :=
  { s with _rx_buffer_len := 0, _lora_rdy_f := false, _rsp_rdy_f := false, _rsp_f := true }

/-- Source: `static uint8_t _lora_par(void)` -/
def _lora_par (s : LoRa) : Nat :=
  if rx_is s "invalid_param" then 1
  else if rx_is s "not_joined" then 2
  else if rx_is s "no_free_ch" then 3
  else if rx_is s "silent" then 4
  else if rx_is s "frame_counter_err_rejoin_needed" then 5
  else if rx_is s "busy" then 6
  else if rx_is s "mac_paused" then 7
  else if rx_is s "invalid_data_len" then 8
  else if rx_is s "keys_not_init" then 9
  else 0

/-- Source: `static uint8_t _lora_repar(void)` -/
def _lora_repar (s : LoRa) : Nat :=
  if rx_is s "mac_err" then 10
  else if rx_is s "mac_tx_ok" then 0
  else if rx_is s "mac_rx" then 12
  else if rx_is s "invalid_data_len" then 13
  else if rx_is s "radio_err" then 14
  else if rx_is s "radio_tx_ok" then 0
  else if rx_is s "radio_rx" then 0
  else if rx_is s "accepted" then 0
  else if rx_is s "denied" then 18
  else 0

/-- Source: `static void _lora_write(void)`: the string in `_tx_buffer` goes out byte
by byte, then `'\r'` and `'\n'`. Every caller has just put a NUL-terminated
string into `_tx_buffer` with `strcpy` / `strcat`. -/
def _lora_write (s : LoRa) : LoRa :=
  { s with
    uart_tx := s.uart_tx ++ cstr s._tx_buffer ++ [CR, LF]
    _rx_buffer_len := 0
    _lora_rdy_f := false
    _rsp_rdy_f := false
    _timer_f := true
    _rsp_f := true }

/-- Source: `static void _lora_read(void)`: with `_rsp_f` set the receive-buffer string
is copied to the caller buffer `_rsp_buffer` points at. The chip-select toggles
are not modelled. -/
def _lora_read (s : LoRa) : Except Stop LoRa :=
  let copied : Except Stop (Option (List Byte)) :=
    if s._rsp_f then
      match s._rsp_buffer with
      | none => .error .fault
      | some _ => .ok (some (cstr s._rx_buffer))
    else
      .ok s._rsp_buffer
  match copied with
  | .error e => .error e
  | .ok r =>
    .ok { s with
          _rsp_buffer := r
          _lora_rdy_f := true
          _rsp_rdy_f := false
          _timer_f := false
          _rsp_f := true }

/-- Source: `memset(buf, 0, n)` on a fixed-size array. -/
def memset0 (buf : List Byte) (n : Nat) : List Byte :=
  List.replicate (min n buf.length) 0 ++ buf.drop n

/-- The `static` variables as the C runtime leaves them before `main`: all
zero, both buffers `LORA_MAX_TRANSFER_SIZE` bytes long, nothing written yet. -/
def power_on : LoRa :=
  { _tx_buffer := List.replicate LORA_MAX_TRANSFER_SIZE 0
    _rx_buffer := List.replicate LORA_MAX_TRANSFER_SIZE 0
    _rx_buffer_len := 0
    _timer_f := false
    _timeout_f := false
    _timer_use_f := false
    _ticker := 0
    _timer_max := 0
    _rsp_rdy_f := false
    _lora_rdy_f := false
    _rsp_f := false
    _rsp_buffer := none
    uart_tx := [] }

/-- Source: `void lora_init()`: the reset sequence on the GPIO lines and the delays are
not modelled. -/
def lora_init (s : LoRa) : LoRa :=
  { s with
    _tx_buffer := memset0 s._tx_buffer (LORA_MAX_CMD_SIZE + LORA_MAX_DATA_SIZE)
    _rx_buffer := memset0 s._rx_buffer (LORA_MAX_RSP_SIZE + LORA_MAX_DATA_SIZE)
    _timer_max := LORA_TIMER_EXPIRED
    _rx_buffer_len := 0
    _ticker := 0
    _timer_f := false
    _timeout_f := false
    _timer_use_f := false
    _rsp_f := false
    _rsp_rdy_f := false
    _lora_rdy_f := true }

/-- Source: `void lora_rx_isr(char rx_input)`. An index at or past the end of
`_rx_buffer` is a fault. -/
def lora_rx_isr (rx_input : Byte) (s : LoRa) : Except Stop LoRa :=
  if s._rx_buffer_len < s._rx_buffer.length then
    let s1 := { s with
                _rx_buffer := s._rx_buffer.set s._rx_buffer_len rx_input
                _rx_buffer_len := (s._rx_buffer_len + 1) % 2 ^ 16 }
    if rx_input = CR then
      if s1._rx_buffer_len < s1._rx_buffer.length then
        .ok { s1 with
              _rx_buffer := s1._rx_buffer.set s1._rx_buffer_len 0
              _rx_buffer_len := (s1._rx_buffer_len + 1) % 2 ^ 16
              _rsp_rdy_f := true }
      else
        .error .fault
    else
      .ok s1
  else
    .error .fault

/-- Source: `void lora_tick_isr()`: `_ticker++ > _timer_max` compares the value before
the increment, and is evaluated only when `_timer_f` is set. -/
def lora_tick_isr (s : LoRa) : LoRa :=
  if s._timer_use_f then
    if s._timer_f then
      let s1 := { s with _ticker := (s._ticker + 1) % 2 ^ 32 }
      if s._ticker > s._timer_max then { s1 with _timeout_f := true } else s1
    else s
  else s

/-- Source: `void lora_tick_conf(uint32_t timer_limit)` -/
def lora_tick_conf (timer_limit : Nat) (s : LoRa) : LoRa :=
  if timer_limit ≠ 0 then
    { s with _timer_max := timer_limit, _timer_use_f := true }
  else
    { s with _timer_max := LORA_TIMER_EXPIRED, _timer_use_f := false }

/-- The `while (LoRa_hal_uartRead(&tmp) > 0) lora_rx_isr(tmp);` loop of
`lora_process`, over the bytes the transport has available. -/
def drain : List Byte → LoRa → Except Stop LoRa
  | [], s => .ok s
  | b :: bs, s =>
    match lora_rx_isr b s with
    | .error e => .error e
    | .ok s1 => drain bs s1

/-- Source: `void lora_process()`, with the bytes the transport has available. -/
def lora_process (avail : List Byte) (s : LoRa) : Except Stop LoRa :=
  match drain avail s with
  | .error e => .error e
  | .ok s1 =>
    match (if s1._rsp_rdy_f then _lora_read s1 else .ok s1) with
    | .error e => .error e
    | .ok s2 => if s2._timeout_f then _lora_read s2 else .ok s2

/-- What the environment does around one call of `lora_process`: `ticks` calls
of `lora_tick_isr` since the previous pump step, then `bytes` readable from the
transport during the step. -/
structure Pump where
  ticks : Nat
  bytes : List Byte
  deriving DecidableEq

/-- A pump event with no tick and no byte. -/
def quiet : Pump := { ticks := 0, bytes := [] }

/-- Runs `lora_tick_isr` the given number of times. -/
def ticks : Nat → LoRa → LoRa
  | 0, s => s
  | n + 1, s => ticks n (lora_tick_isr s)

/-- One pump step in its environment: the ticks that came in, then
`lora_process`. -/
def pump (ev : Pump) (s : LoRa) : Except Stop LoRa :=
  lora_process ev.bytes (ticks ev.ticks s)

/-- The next pump event of a schedule; after the end of the schedule the
environment is quiet. -/
def next_pump : List Pump → Pump × List Pump
  | [] => (quiet, [])
  | ev :: rest => (ev, rest)

/-- Source: `while (!_lora_rdy_f) lora_process();` against a schedule of pump events,
returning the state and the unused part of the schedule. Once the schedule is
used up the environment stays quiet: a quiet pump step that leaves the engine
not ready changes nothing, so the loop never exits (`Stop.hang`). -/
def wait_ready : LoRa → List Pump → Except Stop (LoRa × List Pump)
  | s, [] =>
    if s._lora_rdy_f then .ok (s, [])
    else
      match pump quiet s with
      | .error e => .error e
      | .ok s1 => if s1._lora_rdy_f then .ok (s1, []) else .error .hang
  | s, ev :: rest =>
    if s._lora_rdy_f then .ok (s, ev :: rest)
    else
      match pump ev s with
      | .error e => .error e
      | .ok s1 => wait_ready s1 rest

/-- Source: `void lora_cmd(char *cmd, char *response)`; `response` is what the caller
buffer holds on entry. -/
def lora_cmd (cmd response : List Byte) (s : LoRa) (env : List Pump) :
    Except Stop (LoRa × List Pump) := do
  let (s, env) ← wait_ready s env
  let tx ← strcpy s._tx_buffer cmd
  let s := { s with _tx_buffer := tx }
  let s := { s with _rsp_buffer := some response }
  let s := _lora_write s
  wait_ready s env

/-- The `do { while (!_lora_rdy_f) lora_process(); } while ((res = _lora_repar()) == 12);`
loop of `lora_mac_tx`, with an iteration budget. -/
def mac_tx_wait : Nat → LoRa → List Pump → Except Stop (Nat × LoRa × List Pump)
  | 0, _, _ => .error .fuel
  | n + 1, s, env =>
    match wait_ready s env with
    | .error e => .error e
    | .ok (s1, env1) =>
      let res := _lora_repar s1
      if res = 12 then mac_tx_wait n s1 env1 else .ok (res, s1, env1)

/-- Source: `uint8_t lora_mac_tx(char* payload, char* port_no, char *buffer, char *response)` -/
def lora_mac_tx (fuel : Nat) (payload port_no buffer response : List Byte) (s : LoRa)
    (env : List Pump) : Except Stop (Nat × LoRa × List Pump) := do
  let (s, env) ← wait_ready s env
  let tx ← strcpy s._tx_buffer LORA_MAC_TX
  let tx ← strcat tx payload
  let tx ← strcat tx (lit " ")
  let tx ← strcat tx port_no
  let tx ← strcat tx (lit " ")
  let tx ← strcat tx buffer
  let s := { s with _tx_buffer := tx }
  let s := { s with _rsp_buffer := some response }
  let s := _lora_write s
  let (s, env) ← wait_ready s env
  let res := _lora_par s
  if res ≠ 0 then
    return (res, s, env)
  let s := _lora_resp s
  mac_tx_wait fuel s env

/-- Source: `uint8_t lora_join(char* join_mode, char *response)` -/
def lora_join (join_mode response : List Byte) (s : LoRa) (env : List Pump) :
    Except Stop (Nat × LoRa × List Pump) := do
  let (s, env) ← wait_ready s env
  let tx ← strcpy s._tx_buffer LORA_JOIN
  let tx ← strcat tx join_mode
  let s := { s with _tx_buffer := tx }
  let s := { s with _rsp_buffer := some response }
  let s := _lora_write s
  let (s, env) ← wait_ready s env
  let res := _lora_par s
  if res ≠ 0 then
    return (res, s, env)
  let s := _lora_resp s
  let (s, env) ← wait_ready s env
  return (_lora_repar s, s, env)

/-- Source: `uint8_t lora_rx(char* window_size, char *response)`; the test after the
first wait is `if (res == _lora_par()) return res;` with `res` still `0`. -/
def lora_rx (window_size response : List Byte) (s : LoRa) (env : List Pump) :
    Except Stop (Nat × LoRa × List Pump) := do
  let res := 0
  let (s, env) ← wait_ready s env
  let tx ← strcpy s._tx_buffer LORA_RADIO_RX
  let tx ← strcat tx window_size
  let s := { s with _tx_buffer := tx }
  let s := { s with _rsp_buffer := some response }
  let s := _lora_write s
  let (s, env) ← wait_ready s env
  if res = _lora_par s then
    return (res, s, env)
  let s := _lora_resp s
  let (s, env) ← wait_ready s env
  return (_lora_repar s, s, env)

/-- Source: `uint8_t lora_tx(char *buffer)`: three single calls of `lora_process`, no
wait loop; `_rsp_buffer` is left as it was. -/
def lora_tx (buffer : List Byte) (s : LoRa) (env : List Pump) :
    Except Stop (Nat × LoRa × List Pump) := do
  let s ← pump (next_pump env).1 s
  let env := (next_pump env).2
  let tx ← strcpy s._tx_buffer LORA_RADIO_TX
  let tx ← strcat tx buffer
  let s := { s with _tx_buffer := tx }
  let s := _lora_write s
  let s ← pump (next_pump env).1 s
  let env := (next_pump env).2
  let res := _lora_par s
  if res ≠ 0 then
    return (res, s, env)
  let s := _lora_resp s
  let s ← pump (next_pump env).1 s
  let env := (next_pump env).2
  return (_lora_repar s, s, env)

/-- The engine after `lora_init()` on a freshly started program. -/
def ready0 : LoRa := lora_init power_on

/-- One pump event delivering the given bytes and no tick. -/
def rx (bytes : List Byte) : Pump := { ticks := 0, bytes := bytes }

/-- The engine is back in READY: ready, no line pending, timer not armed. -/
def Ready (s : LoRa) : Prop :=
  s._lora_rdy_f = true ∧ s._rsp_rdy_f = false ∧ s._timer_f = false

instance (s : LoRa) : Decidable (Ready s) := by
  unfold Ready
  infer_instance

/-- The engine state right after a command operation has filled `_tx_buffer`
with `tx`, pointed `_rsp_buffer` at the caller buffer and run `_lora_write`. -/
def sent (s : LoRa) (tx response : List Byte) : LoRa :=
  _lora_write { { s with _tx_buffer := tx } with _rsp_buffer := some response }

/-- The first phase of `lora_join`: everything up to the end of the first wait
after the command has been written. -/
def join_first (join_mode response : List Byte) (s : LoRa) (env : List Pump) :
    Except Stop (LoRa × List Pump) := do
  let (s, env) ← wait_ready s env
  let tx ← strcpy s._tx_buffer LORA_JOIN
  let tx ← strcat tx join_mode
  wait_ready (sent s tx response) env

/-- The first phase of `lora_mac_tx`: everything up to the end of the first
wait after the command has been written. -/
def mac_tx_first (payload port_no buffer response : List Byte) (s : LoRa) (env : List Pump) :
    Except Stop (LoRa × List Pump) := do
  let (s, env) ← wait_ready s env
  let tx ← strcpy s._tx_buffer LORA_MAC_TX
  let tx ← strcat tx payload
  let tx ← strcat tx (lit " ")
  let tx ← strcat tx port_no
  let tx ← strcat tx (lit " ")
  let tx ← strcat tx buffer
  wait_ready (sent s tx response) env

/-- The first phase of `lora_rx`: everything up to the end of the first wait
after the command has been written. -/
def rx_first (window_size response : List Byte) (s : LoRa) (env : List Pump) :
    Except Stop (LoRa × List Pump) := do
  let (s, env) ← wait_ready s env
  let tx ← strcpy s._tx_buffer LORA_RADIO_RX
  let tx ← strcat tx window_size
  wait_ready (sent s tx response) env

/-- An engine state whose receive buffer holds the C string `t` (then NULs),
otherwise as after `lora_init`. -/
def holding (t : List Byte) : LoRa :=
  { ready0 with _rx_buffer := t ++ List.replicate (LORA_MAX_TRANSFER_SIZE - t.length) 0 }

/-- One pump event with the given number of ticks and no byte. -/
def tick (n : Nat) : Pump := { ticks := n, bytes := [] }

/-- The engine after `lora_init()` and one `lora_cmd("mac save", buf)` answered by
`ok` + CR: ready, with `_rsp_buffer` pointing at the caller buffer. -/
def configured : LoRa :=
  match lora_cmd (lit "mac save") [] ready0 [rx (lit "ok\r")] with
  | .ok r => r.1
  | .error _ => ready0

/-- The part of the state that `lora_tick_isr` reads and writes. -/
def timer_view (s : LoRa) : Bool × Bool × Nat × Nat × Bool :=
  (s._timer_use_f, s._timer_f, s._ticker, s._timer_max, s._timeout_f)

/-- The total number of ticks in a schedule. -/
def total_ticks : List Pump → Nat
  | [] => 0
  | ev :: rest => ev.ticks + total_ticks rest

/-- The `isspace` of `<ctype.h>` in the "C" locale: space, and the controls
from horizontal tab to carriage return. The functions below take the
classifier as an argument; the theorems only use that NUL is not whitespace. -/
def isspace_C (c : Byte) : Bool := c == 32 || (decide (9 ≤ c) && decide (c ≤ 13))

/-- Source: `char *ltrim(char *s)` in `string_utilities.c`. A pointer into a
character array is the list of the bytes from that position on; the result is
the memory at the returned pointer. -/
def ltrim (isspace : Byte → Bool) (s : List Byte) : List Byte := s.dropWhile isspace

/-- The loop `while(isspace(*--back));` of `rtrim`. The argument is the index of
`back` relative to `s` before the decrement, the result the index at which the
loop stops; `none` when the decrement would take `back` before `s`. -/
def rtrim_scan (isspace : Byte → Bool) (s : List Byte) : Nat → Option Nat
  | 0 => none
  | back + 1 => if isspace (s.getD back 0) then rtrim_scan isspace s back else some back

/-- Source: `char *rtrim(char *s)` in `string_utilities.c`: the memory at `s`
after the call. A scan that leaves the string at its start is a fault. -/
def rtrim (isspace : Byte → Bool) (s : List Byte) : Except Stop (List Byte) :=
  let len := (cstr s).length
  if len = 0 then .ok s
  else
    match rtrim_scan isspace s len with
    | none => .error .fault
    | some back => .ok (s.set (back + 1) 0)

/-- Source: `char *trim(char *s)` in `string_utilities.c`: the memory at the
returned pointer. -/
def trim (isspace : Byte → Bool) (s : List Byte) : Except Stop (List Byte) :=
  rtrim isspace (ltrim isspace s)

/-- The substring of `t` running from its first to its last non-whitespace
character, empty when `t` has none (the words of the claim about `trim`). -/
def between_non_space (isspace : Byte → Bool) (t : List Byte) : List Byte :=
  (t.dropWhile isspace).rdropWhile isspace

/-! ## C strings -/

theorem cstr_append_nul (t rest : List Byte) (h : ∀ b ∈ t, b ≠ 0) :
    cstr (t ++ 0 :: rest) = t := by
  induction t with
  | nil => simp [cstr]
  | cons a t ih =>
    have ha : a ≠ 0 := h a (by simp)
    have ht : ∀ b ∈ t, b ≠ 0 := fun b hb => h b (by simp [hb])
    have := ih ht
    simp only [cstr] at this ⊢
    have hb : (a != 0) = true := by simpa using ha
    rw [List.cons_append, List.takeWhile_cons, hb]
    simp [this]

theorem cstr_no_nul (mem : List Byte) : ∀ b ∈ cstr mem, b ≠ 0 := by
  intro b hb
  have := List.mem_takeWhile_imp hb
  simpa using this

theorem strcpy_cstr {dst src tx : List Byte} (h : strcpy dst src = .ok tx) :
    cstr tx = cstr src := by
  unfold strcpy at h
  simp only at h
  split at h
  · injection h with h
    rw [← h]
    exact cstr_append_nul _ _ (cstr_no_nul src)
  · cases h

theorem strcat_cstr {dst src tx : List Byte} (h : strcat dst src = .ok tx) :
    cstr tx = cstr dst ++ cstr src := by
  unfold strcat at h
  simp only at h
  split at h
  · injection h with h
    rw [← h]
    apply cstr_append_nul
    intro b hb
    rcases List.mem_append.mp hb with hb | hb
    · exact cstr_no_nul dst b hb
    · exact cstr_no_nul src b hb
  · cases h

/-! ## What the receive path and the tick leave alone -/

theorem lora_rx_isr_frame {b : Byte} {s s1 : LoRa} (h : lora_rx_isr b s = .ok s1) :
    s1.uart_tx = s.uart_tx ∧ s1._lora_rdy_f = s._lora_rdy_f ∧ s1._timer_f = s._timer_f ∧
      s1._timeout_f = s._timeout_f := by
  unfold lora_rx_isr at h
  simp only at h
  split at h
  · split at h
    · split at h
      · injection h with h
        subst h
        simp
      · cases h
    · injection h with h
      subst h
      simp
  · cases h

theorem drain_frame {bs : List Byte} {s s1 : LoRa} (h : drain bs s = .ok s1) :
    s1.uart_tx = s.uart_tx ∧ s1._lora_rdy_f = s._lora_rdy_f ∧ s1._timer_f = s._timer_f ∧
      s1._timeout_f = s._timeout_f := by
  induction bs generalizing s with
  | nil =>
    simp only [drain] at h
    injection h with h
    subst h
    simp
  | cons b bs ih =>
    simp only [drain] at h
    cases hb : lora_rx_isr b s with
    | error e => rw [hb] at h; cases h
    | ok s2 =>
      rw [hb] at h
      have h1 := lora_rx_isr_frame hb
      have h2 := ih h
      exact ⟨h2.1.trans h1.1, h2.2.1.trans h1.2.1, h2.2.2.1.trans h1.2.2.1,
        h2.2.2.2.trans h1.2.2.2⟩

theorem lora_tick_isr_frame (s : LoRa) :
    (lora_tick_isr s).uart_tx = s.uart_tx ∧ (lora_tick_isr s)._lora_rdy_f = s._lora_rdy_f ∧
      (lora_tick_isr s)._rsp_rdy_f = s._rsp_rdy_f ∧ (lora_tick_isr s)._timer_f = s._timer_f := by
  unfold lora_tick_isr
  simp only
  split
  · split
    · split <;> simp
    · simp
  · simp

theorem ticks_frame (n : Nat) (s : LoRa) :
    (ticks n s).uart_tx = s.uart_tx ∧ (ticks n s)._lora_rdy_f = s._lora_rdy_f ∧
      (ticks n s)._rsp_rdy_f = s._rsp_rdy_f ∧ (ticks n s)._timer_f = s._timer_f := by
  induction n generalizing s with
  | zero => simp [ticks]
  | succ n ih =>
    simp only [ticks]
    have h1 := lora_tick_isr_frame s
    have h2 := ih (lora_tick_isr s)
    exact ⟨h2.1.trans h1.1, h2.2.1.trans h1.2.1, h2.2.2.1.trans h1.2.2.1,
      h2.2.2.2.trans h1.2.2.2⟩

theorem _lora_read_spec {s s1 : LoRa} (h : _lora_read s = .ok s1) :
    s1.uart_tx = s.uart_tx ∧ Ready s1 := by
  unfold _lora_read at h
  simp only at h
  split at h
  · cases h
  · injection h with h
    subst h
    simp [Ready]

theorem lora_process_spec {avail : List Byte} {s s1 : LoRa}
    (h : lora_process avail s = .ok s1) :
    s1.uart_tx = s.uart_tx ∧ (s._lora_rdy_f = false → s1._lora_rdy_f = false ∨ Ready s1) := by
  unfold lora_process at h
  cases hd : drain avail s with
  | error e => rw [hd] at h; cases h
  | ok d =>
    rw [hd] at h
    simp only at h
    have fd := drain_frame hd
    by_cases hr : d._rsp_rdy_f = true
    · rw [if_pos hr] at h
      cases h1 : _lora_read d with
      | error e => rw [h1] at h; cases h
      | ok s2 =>
        rw [h1] at h
        simp only at h
        have f1 := _lora_read_spec h1
        by_cases ht : s2._timeout_f = true
        · rw [if_pos ht] at h
          have f2 := _lora_read_spec h
          exact ⟨f2.1.trans (f1.1.trans fd.1), fun _ => Or.inr f2.2⟩
        · rw [if_neg ht] at h
          injection h with h
          subst h
          exact ⟨f1.1.trans fd.1, fun _ => Or.inr f1.2⟩
    · rw [if_neg hr] at h
      simp only at h
      by_cases ht : d._timeout_f = true
      · rw [if_pos ht] at h
        have f2 := _lora_read_spec h
        exact ⟨f2.1.trans fd.1, fun _ => Or.inr f2.2⟩
      · rw [if_neg ht] at h
        injection h with h
        subst h
        exact ⟨fd.1, fun h0 => Or.inl (fd.2.1.trans h0)⟩

theorem pump_spec {ev : Pump} {s s1 : LoRa} (h : pump ev s = .ok s1) :
    s1.uart_tx = s.uart_tx ∧ (s._lora_rdy_f = false → s1._lora_rdy_f = false ∨ Ready s1) := by
  unfold pump at h
  have h1 := lora_process_spec h
  have h2 := ticks_frame ev.ticks s
  exact ⟨h1.1.trans h2.1, fun h0 => h1.2 (h2.2.1.trans h0)⟩

theorem wait_ready_spec {env env1 : List Pump} {s s1 : LoRa}
    (h : wait_ready s env = .ok (s1, env1)) :
    s1.uart_tx = s.uart_tx ∧ s1._lora_rdy_f = true ∧ (s._lora_rdy_f = false → Ready s1) := by
  induction env generalizing s with
  | nil =>
    simp only [wait_ready] at h
    by_cases hr : s._lora_rdy_f = true
    · rw [if_pos hr] at h
      injection h with h
      injection h with h _
      subst h
      exact ⟨rfl, hr, fun h0 => by rw [hr] at h0; cases h0⟩
    · rw [if_neg hr] at h
      cases hp : pump quiet s with
      | error e => rw [hp] at h; cases h
      | ok s2 =>
        rw [hp] at h
        simp only at h
        have f := pump_spec hp
        by_cases hr2 : s2._lora_rdy_f = true
        · rw [if_pos hr2] at h
          injection h with h
          injection h with h _
          subst h
          refine ⟨f.1, hr2, fun h0 => ?_⟩
          rcases f.2 h0 with h3 | h3
          · rw [hr2] at h3; cases h3
          · exact h3
        · rw [if_neg hr2] at h
          cases h
  | cons ev rest ih =>
    simp only [wait_ready] at h
    by_cases hr : s._lora_rdy_f = true
    · rw [if_pos hr] at h
      injection h with h
      injection h with h _
      subst h
      exact ⟨rfl, hr, fun h0 => by rw [hr] at h0; cases h0⟩
    · rw [if_neg hr] at h
      cases hp : pump ev s with
      | error e => rw [hp] at h; cases h
      | ok s2 =>
        rw [hp] at h
        simp only at h
        have f := pump_spec hp
        have g := ih h
        refine ⟨g.1.trans f.1, g.2.1, fun h0 => ?_⟩
        rcases f.2 h0 with h3 | h3
        · exact g.2.2 h3
        · have : s2._lora_rdy_f = true := h3.1
          have hs : wait_ready s2 rest = .ok (s2, rest) := by
            cases rest <;> simp [wait_ready, this]
          rw [hs] at h
          injection h with h
          injection h with h _
          subst h
          exact h3

/-! ## Bytes written by the command operations -/

theorem mac_tx_wait_spec {n : Nat} {s s1 : LoRa} {env env1 : List Pump} {res : Nat}
    (h : mac_tx_wait n s env = .ok (res, s1, env1)) :
    s1.uart_tx = s.uart_tx ∧ res = _lora_repar s1 ∧ res ≠ 12 ∧
      (s._lora_rdy_f = false ∨ Ready s → Ready s1) := by
  induction n generalizing s env with
  | zero => simp [mac_tx_wait] at h
  | succ n ih =>
    simp only [mac_tx_wait] at h
    cases h1 : wait_ready s env with
    | error e => rw [h1] at h; cases h
    | ok p1 =>
      obtain ⟨s2, env2⟩ := p1
      rw [h1] at h
      simp only at h
      have f1 := wait_ready_spec h1
      have hR : s._lora_rdy_f = false ∨ Ready s → Ready s2 := by
        intro h0
        rcases h0 with h0 | h0
        · exact f1.2.2 h0
        · have hs : wait_ready s env = .ok (s, env) := by
            cases env <;> simp [wait_ready, h0.1]
          rw [hs] at h1
          injection h1 with h1
          injection h1 with h1 _
          subst h1
          exact h0
      by_cases h12 : _lora_repar s2 = 12
      · rw [if_pos h12] at h
        have g := ih h
        exact ⟨g.1.trans f1.1, g.2.1, g.2.2.1, fun h0 => g.2.2.2 (Or.inr (hR h0))⟩
      · rw [if_neg h12] at h
        injection h with h
        injection h with hres h
        injection h with hs _
        subst hs
        subst hres
        exact ⟨f1.1, rfl, h12, hR⟩

theorem sent_spec (s : LoRa) (tx response : List Byte) :
    (sent s tx response).uart_tx = s.uart_tx ++ cstr tx ++ [CR, LF] ∧
      (sent s tx response)._lora_rdy_f = false := ⟨rfl, rfl⟩

theorem lora_cmd_steps {cmd response : List Byte} {s : LoRa} {env : List Pump}
    {r : LoRa × List Pump} (h : lora_cmd cmd response s env = .ok r) :
    ∃ s1 env1 tx, wait_ready s env = .ok (s1, env1) ∧ cstr tx = cstr cmd ∧
      wait_ready (sent s1 tx response) env1 = .ok r := by
  unfold lora_cmd at h
  simp only [bind, Except.bind] at h
  cases h1 : wait_ready s env with
  | error e => rw [h1] at h; cases h
  | ok p1 =>
    obtain ⟨s1, env1⟩ := p1
    rw [h1] at h
    simp only at h
    cases h2 : strcpy s1._tx_buffer cmd with
    | error e => rw [h2] at h; cases h
    | ok tx =>
      rw [h2] at h
      exact ⟨s1, env1, tx, rfl, strcpy_cstr h2, h⟩

theorem lora_join_steps {join_mode response : List Byte} {s : LoRa} {env : List Pump}
    {r : Nat × LoRa × List Pump} (h : lora_join join_mode response s env = .ok r) :
    ∃ s1 env1 tx s2 env2, wait_ready s env = .ok (s1, env1) ∧
      cstr tx = LORA_JOIN ++ cstr join_mode ∧
      wait_ready (sent s1 tx response) env1 = .ok (s2, env2) ∧
      ((_lora_par s2 ≠ 0 ∧ r = (_lora_par s2, s2, env2)) ∨
        (_lora_par s2 = 0 ∧ ∃ s3 env3, wait_ready (_lora_resp s2) env2 = .ok (s3, env3) ∧
          r = (_lora_repar s3, s3, env3))) := by
  unfold lora_join at h
  simp only [bind, Except.bind, pure, Except.pure] at h
  cases h1 : wait_ready s env with
  | error e => rw [h1] at h; cases h
  | ok p1 =>
    obtain ⟨s1, env1⟩ := p1
    rw [h1] at h
    simp only at h
    cases h2 : strcpy s1._tx_buffer LORA_JOIN with
    | error e => rw [h2] at h; cases h
    | ok tx =>
      rw [h2] at h
      simp only at h
      cases h3 : strcat tx join_mode with
      | error e => rw [h3] at h; cases h
      | ok tx2 =>
        rw [h3] at h
        simp only at h
        have htx : cstr tx2 = LORA_JOIN ++ cstr join_mode := by
          rw [strcat_cstr h3, strcpy_cstr h2]; rfl
        cases h4 : wait_ready (sent s1 tx2 response) env1 with
        | error e => rw [sent] at h4; rw [h4] at h; cases h
        | ok p4 =>
          obtain ⟨s4, env4⟩ := p4
          have h4c := h4
          rw [sent] at h4c
          rw [h4c] at h
          simp only at h
          refine ⟨s1, env1, tx2, s4, env4, rfl, htx, h4, ?_⟩
          split at h
          · rename_i hp
            injection h with h
            exact Or.inl ⟨hp, h.symm⟩
          · rename_i hp
            cases h5 : wait_ready (_lora_resp s4) env4 with
            | error e => rw [h5] at h; cases h
            | ok p5 =>
              obtain ⟨s5, env5⟩ := p5
              rw [h5] at h
              injection h with h
              exact Or.inr ⟨not_not.mp hp, s5, env5, rfl, h.symm⟩

theorem lora_rx_steps {window_size response : List Byte} {s : LoRa} {env : List Pump}
    {r : Nat × LoRa × List Pump} (h : lora_rx window_size response s env = .ok r) :
    ∃ s1 env1 tx s2 env2, wait_ready s env = .ok (s1, env1) ∧
      cstr tx = LORA_RADIO_RX ++ cstr window_size ∧
      wait_ready (sent s1 tx response) env1 = .ok (s2, env2) ∧
      ((_lora_par s2 = 0 ∧ r = (0, s2, env2)) ∨
        (_lora_par s2 ≠ 0 ∧ ∃ s3 env3, wait_ready (_lora_resp s2) env2 = .ok (s3, env3) ∧
          r = (_lora_repar s3, s3, env3))) := by
  unfold lora_rx at h
  simp only [bind, Except.bind, pure, Except.pure] at h
  cases h1 : wait_ready s env with
  | error e => rw [h1] at h; cases h
  | ok p1 =>
    obtain ⟨s1, env1⟩ := p1
    rw [h1] at h
    simp only at h
    cases h2 : strcpy s1._tx_buffer LORA_RADIO_RX with
    | error e => rw [h2] at h; cases h
    | ok tx =>
      rw [h2] at h
      simp only at h
      cases h3 : strcat tx window_size with
      | error e => rw [h3] at h; cases h
      | ok tx2 =>
        rw [h3] at h
        simp only at h
        have htx : cstr tx2 = LORA_RADIO_RX ++ cstr window_size := by
          rw [strcat_cstr h3, strcpy_cstr h2]; rfl
        cases h4 : wait_ready (sent s1 tx2 response) env1 with
        | error e => rw [sent] at h4; rw [h4] at h; cases h
        | ok p4 =>
          obtain ⟨s4, env4⟩ := p4
          have h4c := h4
          rw [sent] at h4c
          rw [h4c] at h
          simp only at h
          refine ⟨s1, env1, tx2, s4, env4, rfl, htx, h4, ?_⟩
          split at h
          · rename_i hp
            injection h with h
            exact Or.inl ⟨hp.symm, h.symm⟩
          · rename_i hp
            cases h5 : wait_ready (_lora_resp s4) env4 with
            | error e => rw [h5] at h; cases h
            | ok p5 =>
              obtain ⟨s5, env5⟩ := p5
              rw [h5] at h
              injection h with h
              exact Or.inr ⟨fun h0 => hp h0.symm, s5, env5, rfl, h.symm⟩

theorem lora_mac_tx_steps {fuel : Nat} {payload port_no buffer response : List Byte}
    {s : LoRa} {env : List Pump} {r : Nat × LoRa × List Pump}
    (h : lora_mac_tx fuel payload port_no buffer response s env = .ok r) :
    ∃ s1 env1 tx s2 env2, wait_ready s env = .ok (s1, env1) ∧
      cstr tx = LORA_MAC_TX ++ cstr payload ++ lit " " ++ cstr port_no ++ lit " " ++
        cstr buffer ∧
      wait_ready (sent s1 tx response) env1 = .ok (s2, env2) ∧
      ((_lora_par s2 ≠ 0 ∧ r = (_lora_par s2, s2, env2)) ∨
        (_lora_par s2 = 0 ∧ mac_tx_wait fuel (_lora_resp s2) env2 = .ok r)) := by
  unfold lora_mac_tx at h
  simp only [bind, Except.bind, pure, Except.pure] at h
  cases h1 : wait_ready s env with
  | error e => rw [h1] at h; cases h
  | ok p1 =>
    obtain ⟨s1, env1⟩ := p1
    rw [h1] at h
    simp only at h
    cases h2 : strcpy s1._tx_buffer LORA_MAC_TX with
    | error e => rw [h2] at h; cases h
    | ok t0 =>
      rw [h2] at h
      simp only at h
      cases h3 : strcat t0 payload with
      | error e => rw [h3] at h; cases h
      | ok t1 =>
        rw [h3] at h
        simp only at h
        cases h4 : strcat t1 (lit " ") with
        | error e => rw [h4] at h; cases h
        | ok t2 =>
          rw [h4] at h
          simp only at h
          cases h5 : strcat t2 port_no with
          | error e => rw [h5] at h; cases h
          | ok t3 =>
            rw [h5] at h
            simp only at h
            cases h6 : strcat t3 (lit " ") with
            | error e => rw [h6] at h; cases h
            | ok t4 =>
              rw [h6] at h
              simp only at h
              cases h7 : strcat t4 buffer with
              | error e => rw [h7] at h; cases h
              | ok tx =>
                rw [h7] at h
                simp only at h
                have htx : cstr tx = LORA_MAC_TX ++ cstr payload ++ lit " " ++ cstr port_no ++
                    lit " " ++ cstr buffer := by
                  rw [strcat_cstr h7, strcat_cstr h6, strcat_cstr h5, strcat_cstr h4,
                    strcat_cstr h3, strcpy_cstr h2]
                  rfl
                cases h8 : wait_ready (sent s1 tx response) env1 with
                | error e => rw [sent] at h8; rw [h8] at h; cases h
                | ok p8 =>
                  obtain ⟨s8, env8⟩ := p8
                  have h8c := h8
                  rw [sent] at h8c
                  rw [h8c] at h
                  simp only at h
                  refine ⟨s1, env1, tx, s8, env8, rfl, htx, h8, ?_⟩
                  split at h
                  · rename_i hp
                    injection h with h
                    exact Or.inl ⟨hp, h.symm⟩
                  · rename_i hp
                    exact Or.inr ⟨not_not.mp hp, h⟩

theorem lora_tx_steps {buffer : List Byte} {s : LoRa} {env : List Pump}
    {r : Nat × LoRa × List Pump} (h : lora_tx buffer s env = .ok r) :
    ∃ s1 tx s2, pump (next_pump env).1 s = .ok s1 ∧
      cstr tx = LORA_RADIO_TX ++ cstr buffer ∧
      pump (next_pump (next_pump env).2).1 (_lora_write { s1 with _tx_buffer := tx }) = .ok s2 ∧
      ((_lora_par s2 ≠ 0 ∧ r = (_lora_par s2, s2, (next_pump (next_pump env).2).2)) ∨
        (_lora_par s2 = 0 ∧ ∃ s3,
          pump (next_pump (next_pump (next_pump env).2).2).1 (_lora_resp s2) = .ok s3 ∧
          r = (_lora_repar s3, s3, (next_pump (next_pump (next_pump env).2).2).2))) := by
  unfold lora_tx at h
  simp only [bind, Except.bind, pure, Except.pure] at h
  cases h1 : pump (next_pump env).1 s with
  | error e => rw [h1] at h; cases h
  | ok s1 =>
    rw [h1] at h
    simp only at h
    cases h2 : strcpy s1._tx_buffer LORA_RADIO_TX with
    | error e => rw [h2] at h; cases h
    | ok tx =>
      rw [h2] at h
      simp only at h
      cases h3 : strcat tx buffer with
      | error e => rw [h3] at h; cases h
      | ok tx2 =>
        rw [h3] at h
        simp only at h
        have htx : cstr tx2 = LORA_RADIO_TX ++ cstr buffer := by
          rw [strcat_cstr h3, strcpy_cstr h2]; rfl
        cases h4 : pump (next_pump (next_pump env).2).1 (_lora_write { s1 with _tx_buffer := tx2 })
          with
        | error e => rw [h4] at h; cases h
        | ok s4 =>
          rw [h4] at h
          simp only at h
          refine ⟨s1, tx2, s4, rfl, htx, h4, ?_⟩
          split at h
          · rename_i hp
            injection h with h
            exact Or.inl ⟨hp, h.symm⟩
          · rename_i hp
            cases h5 : pump (next_pump (next_pump (next_pump env).2).2).1 (_lora_resp s4) with
            | error e => rw [h5] at h; cases h
            | ok s5 =>
              rw [h5] at h
              injection h with h
              exact Or.inr ⟨not_not.mp hp, s5, rfl, h.symm⟩

/-- C2 as stated fails: with the receive buffer holding `not_joined` the
immediate classifier returns 2 (not 1), with `busy` 6 (not 2), with
`invalid_param` 1 (not 3). -/
theorem lora_par_order_counterexample :
    ¬ (_lora_par (holding (lit "not_joined")) = 1 ∧ _lora_par (holding (lit "busy")) = 2 ∧
        _lora_par (holding (lit "invalid_param")) = 3) ∧
      _lora_par (holding (lit "not_joined")) = 2 ∧ _lora_par (holding (lit "busy")) = 6 ∧
      _lora_par (holding (lit "invalid_param")) = 1 := by
  decide

/-- C2, amended: `_lora_par` maps the receive-buffer string `invalid_param` to
1, `not_joined` to 2, `no_free_ch` to 3, `silent` to 4,
`frame_counter_err_rejoin_needed` to 5, `busy` to 6, `mac_paused` to 7,
`invalid_data_len` to 8, `keys_not_init` to 9, and returns 0 when the string is
none of these. -/
theorem lora_par_table (s : LoRa) :
    (cstr s._rx_buffer = lit "invalid_param" → _lora_par s = 1) ∧
    (cstr s._rx_buffer = lit "not_joined" → _lora_par s = 2) ∧
    (cstr s._rx_buffer = lit "no_free_ch" → _lora_par s = 3) ∧
    (cstr s._rx_buffer = lit "silent" → _lora_par s = 4) ∧
    (cstr s._rx_buffer = lit "frame_counter_err_rejoin_needed" → _lora_par s = 5) ∧
    (cstr s._rx_buffer = lit "busy" → _lora_par s = 6) ∧
    (cstr s._rx_buffer = lit "mac_paused" → _lora_par s = 7) ∧
    (cstr s._rx_buffer = lit "invalid_data_len" → _lora_par s = 8) ∧
    (cstr s._rx_buffer = lit "keys_not_init" → _lora_par s = 9) ∧
    (cstr s._rx_buffer ∉ [lit "invalid_param", lit "not_joined", lit "no_free_ch",
        lit "silent", lit "frame_counter_err_rejoin_needed", lit "busy", lit "mac_paused",
        lit "invalid_data_len", lit "keys_not_init"] → _lora_par s = 0) := by
  refine ⟨?_, ?_, ?_, ?_, ?_, ?_, ?_, ?_, ?_, ?_⟩
  all_goals intro h
  all_goals try (simp only [_lora_par, rx_is, h]; decide)
  simp only [List.mem_cons, List.mem_singleton, List.not_mem_nil, or_false, not_or] at h
  obtain ⟨h1, h2, h3, h4, h5, h6, h7, h8, h9⟩ := h
  simp [_lora_par, rx_is, h1, h2, h3, h4, h5, h6, h7, h8, h9]

/-- C2, amended, at concrete receive buffers: one per table row and one
unknown string. -/
theorem lora_par_table_witness :
    _lora_par (holding (lit "invalid_param")) = 1 ∧
    _lora_par (holding (lit "not_joined")) = 2 ∧
    _lora_par (holding (lit "no_free_ch")) = 3 ∧
    _lora_par (holding (lit "silent")) = 4 ∧
    _lora_par (holding (lit "frame_counter_err_rejoin_needed")) = 5 ∧
    _lora_par (holding (lit "busy")) = 6 ∧
    _lora_par (holding (lit "mac_paused")) = 7 ∧
    _lora_par (holding (lit "invalid_data_len")) = 8 ∧
    _lora_par (holding (lit "keys_not_init")) = 9 ∧
    _lora_par (holding (lit "ok")) = 0 :=
  ⟨(lora_par_table _).1 (by decide),
   (lora_par_table _).2.1 (by decide),
   (lora_par_table _).2.2.1 (by decide),
   (lora_par_table _).2.2.2.1 (by decide),
   (lora_par_table _).2.2.2.2.1 (by decide),
   (lora_par_table _).2.2.2.2.2.1 (by decide),
   (lora_par_table _).2.2.2.2.2.2.1 (by decide),
   (lora_par_table _).2.2.2.2.2.2.2.1 (by decide),
   (lora_par_table _).2.2.2.2.2.2.2.2.1 (by decide),
   (lora_par_table _).2.2.2.2.2.2.2.2.2 (by decide)⟩

/-- C3: `_lora_repar` maps the receive-buffer string `mac_err` to 10,
`mac_tx_ok` to 0, `mac_rx` to 12, `invalid_data_len` to 13, `radio_err` to 14,
`radio_tx_ok` to 0, `radio_rx` to 0, `accepted` to 0, `denied` to 18 and every
other string to 0; its result always lies in {0, 10, 12, 13, 14, 18}. -/
theorem lora_repar_table (s : LoRa) :
    (cstr s._rx_buffer = lit "mac_err" → _lora_repar s = 10) ∧
    (cstr s._rx_buffer = lit "mac_tx_ok" → _lora_repar s = 0) ∧
    (cstr s._rx_buffer = lit "mac_rx" → _lora_repar s = 12) ∧
    (cstr s._rx_buffer = lit "invalid_data_len" → _lora_repar s = 13) ∧
    (cstr s._rx_buffer = lit "radio_err" → _lora_repar s = 14) ∧
    (cstr s._rx_buffer = lit "radio_tx_ok" → _lora_repar s = 0) ∧
    (cstr s._rx_buffer = lit "radio_rx" → _lora_repar s = 0) ∧
    (cstr s._rx_buffer = lit "accepted" → _lora_repar s = 0) ∧
    (cstr s._rx_buffer = lit "denied" → _lora_repar s = 18) ∧
    (cstr s._rx_buffer ∉ [lit "mac_err", lit "mac_tx_ok", lit "mac_rx", lit "invalid_data_len",
        lit "radio_err", lit "radio_tx_ok", lit "radio_rx", lit "accepted", lit "denied"] →
      _lora_repar s = 0) ∧
    _lora_repar s ∈ [0, 10, 12, 13, 14, 18] := by
  refine ⟨?_, ?_, ?_, ?_, ?_, ?_, ?_, ?_, ?_, ?_, ?_⟩
  iterate 9 (intro h; simp only [_lora_repar, rx_is, h]; decide)
  · intro h
    simp only [List.mem_cons, List.mem_singleton, List.not_mem_nil, or_false, not_or] at h
    obtain ⟨h1, h2, h3, h4, h5, h6, h7, h8, h9⟩ := h
    simp [_lora_repar, rx_is, h1, h2, h3, h4, h5, h6, h7, h8, h9]
  · unfold _lora_repar
    split_ifs <;> decide

/-- C3 at concrete receive buffers: one per table row and one unknown string. -/
theorem lora_repar_table_witness :
    _lora_repar (holding (lit "mac_err")) = 10 ∧
    _lora_repar (holding (lit "mac_tx_ok")) = 0 ∧
    _lora_repar (holding (lit "mac_rx")) = 12 ∧
    _lora_repar (holding (lit "invalid_data_len")) = 13 ∧
    _lora_repar (holding (lit "radio_err")) = 14 ∧
    _lora_repar (holding (lit "radio_tx_ok")) = 0 ∧
    _lora_repar (holding (lit "radio_rx")) = 0 ∧
    _lora_repar (holding (lit "accepted")) = 0 ∧
    _lora_repar (holding (lit "denied")) = 18 ∧
    _lora_repar (holding (lit "ok")) = 0 :=
  ⟨(lora_repar_table _).1 (by decide),
   (lora_repar_table _).2.1 (by decide),
   (lora_repar_table _).2.2.1 (by decide),
   (lora_repar_table _).2.2.2.1 (by decide),
   (lora_repar_table _).2.2.2.2.1 (by decide),
   (lora_repar_table _).2.2.2.2.2.1 (by decide),
   (lora_repar_table _).2.2.2.2.2.2.1 (by decide),
   (lora_repar_table _).2.2.2.2.2.2.2.1 (by decide),
   (lora_repar_table _).2.2.2.2.2.2.2.2.1 (by decide),
   (lora_repar_table _).2.2.2.2.2.2.2.2.2.1 (by decide)⟩

/-! ## The two-phase operations at concrete replies -/

theorem mac_tx_wait_spin (n : Nat) (s : LoRa) (env : List Pump) (hr : s._lora_rdy_f = true)
    (h12 : _lora_repar s = 12) : mac_tx_wait n s env = .error .fuel := by
  induction n with
  | zero => rfl
  | succ n ih =>
    have hs : wait_ready s env = .ok (s, env) := by
      cases env <;> simp [wait_ready, hr]
    simp only [mac_tx_wait, hs, h12, if_true]
    exact ih

set_option maxRecDepth 100000 in
/-- C4, on the code: after `lora_init`, `lora_join("otaa")` with the reply line
`busy` + CR does not return 6. The receive-buffer string is `busy` followed by
the carriage return, the immediate classification is 0, and the operation goes
on to wait for a second line: it hangs if none comes, and returns 0 after
consuming a second line `denied` + CR. -/
theorem join_busy_line_not_rejected :
    (join_first (lit "otaa") [] ready0 [rx (lit "busy\r")]).toOption.map
        (fun r => (cstr r.1._rx_buffer, _lora_par r.1)) = some (lit "busy\r", 0) ∧
      lora_join (lit "otaa") [] ready0 [rx (lit "busy\r")] = .error .hang ∧
      ∃ s, lora_join (lit "otaa") [] ready0 [rx (lit "busy\r"), rx (lit "denied\r")] =
        .ok (0, s, []) :=
  ⟨by decide, rfl, _, rfl⟩

set_option maxRecDepth 100000 in
/-- C5, on the code: `lora_mac_tx("cnf","1","48656C6C6F")` with the reply lines
empty, `mac_rx`, `mac_tx_ok` (each ended by CR, one per pump step) returns 0
after the second line and leaves the third unread; the second line is stored
as `mac_rx` + CR and classifies as 0. And when the buffer does classify as 12
(here `mac_rx` with no CR, delivered by a timeout) the loop classifies the same
buffer again without pumping and never exits, whatever the iteration budget. -/
theorem mac_tx_downlink_line :
    (∀ n, ∃ s, lora_mac_tx (n + 1) (lit "cnf") (lit "1") (lit "48656C6C6F") [] ready0
        [rx (lit "\r"), rx (lit "mac_rx\r"), rx (lit "mac_tx_ok\r")] =
          .ok (0, s, [rx (lit "mac_tx_ok\r")]) ∧
        cstr s._rx_buffer = lit "mac_rx\r" ∧ _lora_repar s = 0) ∧
      (∀ n, lora_mac_tx n (lit "cnf") (lit "1") (lit "48656C6C6F") []
        (lora_tick_conf 1 ready0) [{ ticks := 3, bytes := lit "xx" }, rx (lit "mac_rx")] =
          .error .fuel) := by
  constructor
  · intro n
    exact ⟨_, rfl, by decide, by decide⟩
  · intro n
    cases n with
    | zero => rfl
    | succ n => exact mac_tx_wait_spin n _ _ (by rfl) (by decide)

set_option maxRecDepth 100000 in
/-- C8, on the code: `lora_rx` tests `res == _lora_par()` with `res` equal to 0.
With a first line whose immediate classification is 0 it returns 0 at once and
leaves the next line unread; with a first buffer `busy` (immediate
classification 6, delivered by a timeout) it does not return 6 but resets the
line state, waits again and returns the terminal classification 0. -/
theorem rx_phase_test_inverted :
    (∃ s, lora_rx (lit "0") [] ready0 [rx (lit "ok\r"), rx (lit "radio_err\r")] =
        .ok (0, s, [rx (lit "radio_err\r")])) ∧
      (∃ s, lora_rx (lit "0") [] (lora_tick_conf 1 ready0)
          [{ ticks := 3, bytes := lit "busy" }, quiet] = .ok (0, s, []) ∧
        cstr s._rx_buffer = lit "busy" ∧ _lora_par s = 6) :=
  ⟨⟨_, rfl⟩, ⟨_, rfl, by decide, by decide⟩⟩

/-! ## Result codes and the engine state on return -/

theorem lora_par_le (s : LoRa) : _lora_par s ≤ 9 := by
  unfold _lora_par
  split_ifs <;> decide

theorem lora_repar_mem (s : LoRa) : _lora_repar s ∈ [0, 10, 12, 13, 14, 18] := by
  unfold _lora_repar
  split_ifs <;> decide

/-- C6: whenever `lora_mac_tx` returns, from any state, against any schedule and
with any iteration budget, the code is not 12: it is an immediate code in 1..9
or a terminal code in {0, 10, 13, 14, 18}. -/
theorem mac_tx_never_returns_downlink (fuel : Nat) (payload port_no buffer response : List Byte)
    (s : LoRa) (env : List Pump) (r : Nat × LoRa × List Pump)
    (h : lora_mac_tx fuel payload port_no buffer response s env = .ok r) :
    r.1 ≠ 12 ∧ ((1 ≤ r.1 ∧ r.1 ≤ 9) ∨ r.1 ∈ [0, 10, 13, 14, 18]) := by
  obtain ⟨s1, env1, tx, s2, env2, _, _, _, h3⟩ := lora_mac_tx_steps h
  rcases h3 with ⟨hp, hr⟩ | ⟨_, h4⟩
  · rw [hr]
    have hle := lora_par_le s2
    simp only
    exact ⟨by omega, Or.inl ⟨by omega, hle⟩⟩
  · obtain ⟨res, s3, env3⟩ := r
    have g := mac_tx_wait_spec h4
    have hm := lora_repar_mem s3
    rw [← g.2.1] at hm
    refine ⟨g.2.2.1, Or.inr ?_⟩
    have h12 := g.2.2.1
    simp only [List.mem_cons, List.mem_singleton, List.not_mem_nil, or_false] at hm ⊢
    omega

set_option maxRecDepth 100000 in
/-- C6 at a concrete run: a first line, then the line `mac_tx_ok`. -/
theorem mac_tx_never_returns_downlink_witness :
    ∃ r, lora_mac_tx 1 (lit "cnf") (lit "1") (lit "48656C6C6F") [] ready0
        [rx (lit "ok\r"), rx (lit "mac_tx_ok\r")] = .ok r ∧
      r.1 ≠ 12 ∧ ((1 ≤ r.1 ∧ r.1 ≤ 9) ∨ r.1 ∈ [0, 10, 13, 14, 18]) :=
  ⟨_, rfl, mac_tx_never_returns_downlink 1 (lit "cnf") (lit "1") (lit "48656C6C6F") [] ready0
    [rx (lit "ok\r"), rx (lit "mac_tx_ok\r")] _ rfl⟩

theorem lora_join_eq (join_mode response : List Byte) (s : LoRa) (env : List Pump) :
    lora_join join_mode response s env =
      (join_first join_mode response s env).bind fun p =>
        if _lora_par p.1 ≠ 0 then .ok (_lora_par p.1, p.1, p.2)
        else (wait_ready (_lora_resp p.1) p.2).bind fun q => .ok (_lora_repar q.1, q.1, q.2) := by
  unfold lora_join join_first
  simp only [bind, Except.bind, pure, Except.pure, sent]
  cases wait_ready s env with
  | error e => rfl
  | ok p1 =>
    simp only
    cases strcpy p1.1._tx_buffer LORA_JOIN with
    | error e => rfl
    | ok tx =>
      simp only
      cases strcat tx join_mode with
      | error e => rfl
      | ok tx2 =>
        simp only

theorem lora_mac_tx_eq (fuel : Nat) (payload port_no buffer response : List Byte) (s : LoRa)
    (env : List Pump) :
    lora_mac_tx fuel payload port_no buffer response s env =
      (mac_tx_first payload port_no buffer response s env).bind fun p =>
        if _lora_par p.1 ≠ 0 then .ok (_lora_par p.1, p.1, p.2)
        else mac_tx_wait fuel (_lora_resp p.1) p.2 := by
  unfold lora_mac_tx mac_tx_first
  simp only [bind, Except.bind, pure, Except.pure, sent]
  cases wait_ready s env with
  | error e => rfl
  | ok p1 =>
    simp only
    cases strcpy p1.1._tx_buffer LORA_MAC_TX with
    | error e => rfl
    | ok t0 =>
      simp only
      cases strcat t0 payload with
      | error e => rfl
      | ok t1 =>
        simp only
        cases strcat t1 (lit " ") with
        | error e => rfl
        | ok t2 =>
          simp only
          cases strcat t2 port_no with
          | error e => rfl
          | ok t3 =>
            simp only
            cases strcat t3 (lit " ") with
            | error e => rfl
            | ok t4 =>
              simp only
              cases strcat t4 buffer with
              | error e => rfl
              | ok tx =>
                simp only
theorem lora_join_of_first {join_mode response : List Byte} {s s2 : LoRa}
    {env env2 : List Pump} (h : join_first join_mode response s env = .ok (s2, env2))
    (hp : _lora_par s2 ≠ 0) :
    lora_join join_mode response s env = .ok (_lora_par s2, s2, env2) := by
  rw [lora_join_eq, h]
  simp [Except.bind, hp]

theorem lora_mac_tx_of_first {fuel : Nat} {payload port_no buffer response : List Byte}
    {s s2 : LoRa} {env env2 : List Pump}
    (h : mac_tx_first payload port_no buffer response s env = .ok (s2, env2))
    (hp : _lora_par s2 ≠ 0) :
    lora_mac_tx fuel payload port_no buffer response s env = .ok (_lora_par s2, s2, env2) := by
  rw [lora_mac_tx_eq, h]
  simp [Except.bind, hp]

/-- C7: for `lora_join` and `lora_mac_tx`, if the receive-buffer string has a
nonzero immediate classification `c` when the first wait completes, the
operation returns `c` together with the very state and the very rest of the
schedule of that moment (no reset of the line state, no further pump step, no
use of the terminal table); so a buffer holding exactly `invalid_data_len` at
that point makes `lora_mac_tx` return 8. -/
theorem immediate_rejection_returns_at_once :
    (∀ (join_mode response : List Byte) (s s2 : LoRa) (env env2 : List Pump),
      join_first join_mode response s env = .ok (s2, env2) → _lora_par s2 ≠ 0 →
      lora_join join_mode response s env = .ok (_lora_par s2, s2, env2)) ∧
    (∀ (fuel : Nat) (payload port_no buffer response : List Byte) (s s2 : LoRa)
      (env env2 : List Pump),
      mac_tx_first payload port_no buffer response s env = .ok (s2, env2) → _lora_par s2 ≠ 0 →
      lora_mac_tx fuel payload port_no buffer response s env = .ok (_lora_par s2, s2, env2)) ∧
    (∀ (fuel : Nat) (payload port_no buffer response : List Byte) (s s2 : LoRa)
      (env env2 : List Pump),
      mac_tx_first payload port_no buffer response s env = .ok (s2, env2) →
      cstr s2._rx_buffer = lit "invalid_data_len" →
      lora_mac_tx fuel payload port_no buffer response s env = .ok (8, s2, env2)) := by
  refine ⟨?_, ?_, ?_⟩
  · intro join_mode response s s2 env env2 h hp
    exact lora_join_of_first h hp
  · intro fuel payload port_no buffer response s s2 env env2 h hp
    exact lora_mac_tx_of_first h hp
  · intro fuel payload port_no buffer response s s2 env env2 h hb
    have h8 : _lora_par s2 = 8 := by
      simp only [_lora_par, rx_is, hb]
      decide
    have := @lora_mac_tx_of_first fuel _ _ _ _ _ _ _ _ h (by omega)
    rw [h8] at this
    exact this

set_option maxRecDepth 100000 in
/-- C7 at concrete runs with a tick limit of 1: the bytes `busy`, resp.
`invalid_data_len`, arrive without a carriage return and the timeout ends the
first wait; one further line is left in the schedule and stays there. -/
theorem immediate_rejection_returns_at_once_witness :
    (∃ s2, join_first (lit "otaa") [] (lora_tick_conf 1 ready0)
        [{ ticks := 3, bytes := lit "busy" }, rx (lit "denied\r")] =
          .ok (s2, [rx (lit "denied\r")]) ∧
      lora_join (lit "otaa") [] (lora_tick_conf 1 ready0)
        [{ ticks := 3, bytes := lit "busy" }, rx (lit "denied\r")] =
          .ok (6, s2, [rx (lit "denied\r")])) ∧
    (∃ s2, mac_tx_first (lit "cnf") (lit "1") (lit "48") [] (lora_tick_conf 1 ready0)
        [{ ticks := 3, bytes := lit "busy" }, rx (lit "mac_err\r")] =
          .ok (s2, [rx (lit "mac_err\r")]) ∧
      lora_mac_tx 1 (lit "cnf") (lit "1") (lit "48") [] (lora_tick_conf 1 ready0)
        [{ ticks := 3, bytes := lit "busy" }, rx (lit "mac_err\r")] =
          .ok (6, s2, [rx (lit "mac_err\r")])) ∧
    (∃ s2, mac_tx_first (lit "cnf") (lit "1") (lit "48") [] (lora_tick_conf 1 ready0)
        [{ ticks := 3, bytes := lit "invalid_data_len" }, rx (lit "mac_err\r")] =
          .ok (s2, [rx (lit "mac_err\r")]) ∧
      lora_mac_tx 1 (lit "cnf") (lit "1") (lit "48") [] (lora_tick_conf 1 ready0)
        [{ ticks := 3, bytes := lit "invalid_data_len" }, rx (lit "mac_err\r")] =
          .ok (8, s2, [rx (lit "mac_err\r")])) :=
  ⟨⟨_, rfl, immediate_rejection_returns_at_once.1 (lit "otaa") [] (lora_tick_conf 1 ready0) _
      [{ ticks := 3, bytes := lit "busy" }, rx (lit "denied\r")] [rx (lit "denied\r")] rfl
      (by decide)⟩,
   ⟨_, rfl, immediate_rejection_returns_at_once.2.1 1 (lit "cnf") (lit "1") (lit "48") []
      (lora_tick_conf 1 ready0) _
      [{ ticks := 3, bytes := lit "busy" }, rx (lit "mac_err\r")] [rx (lit "mac_err\r")] rfl
      (by decide)⟩,
   ⟨_, rfl, immediate_rejection_returns_at_once.2.2 1 (lit "cnf") (lit "1") (lit "48") []
      (lora_tick_conf 1 ready0) _
      [{ ticks := 3, bytes := lit "invalid_data_len" }, rx (lit "mac_err\r")]
      [rx (lit "mac_err\r")] rfl (by decide)⟩⟩

/-- C9: whenever `lora_cmd`, `lora_join`, `lora_mac_tx` or `lora_rx` returns,
from any state and against any schedule of ticks and bytes, the ready flag is
set and the line-ready and timer-armed flags are clear. -/
theorem returns_in_ready (s : LoRa) (env : List Pump) (response : List Byte) :
    (∀ cmd r, lora_cmd cmd response s env = .ok r → Ready r.1) ∧
    (∀ mode r, lora_join mode response s env = .ok r → Ready r.2.1) ∧
    (∀ fuel payload port hex r, lora_mac_tx fuel payload port hex response s env = .ok r →
      Ready r.2.1) ∧
    (∀ size r, lora_rx size response s env = .ok r → Ready r.2.1) := by
  refine ⟨?_, ?_, ?_, ?_⟩
  · intro cmd r h
    obtain ⟨s1, env1, tx, _, _, h2⟩ := lora_cmd_steps h
    obtain ⟨s2, env2⟩ := r
    exact (wait_ready_spec h2).2.2 (sent_spec s1 tx response).2
  · intro mode r h
    obtain ⟨s1, env1, tx, s2, env2, _, _, h2, h3⟩ := lora_join_steps h
    rcases h3 with ⟨_, hr⟩ | ⟨_, s3, env3, h4, hr⟩
    · rw [hr]
      exact (wait_ready_spec h2).2.2 (sent_spec s1 tx response).2
    · rw [hr]
      exact (wait_ready_spec h4).2.2 rfl
  · intro fuel payload port hex r h
    obtain ⟨s1, env1, tx, s2, env2, _, _, h2, h3⟩ := lora_mac_tx_steps h
    rcases h3 with ⟨_, hr⟩ | ⟨_, h4⟩
    · rw [hr]
      exact (wait_ready_spec h2).2.2 (sent_spec s1 tx response).2
    · obtain ⟨res, s3, env3⟩ := r
      exact (mac_tx_wait_spec h4).2.2.2 (Or.inl rfl)
  · intro size r h
    obtain ⟨s1, env1, tx, s2, env2, _, _, h2, h3⟩ := lora_rx_steps h
    rcases h3 with ⟨_, hr⟩ | ⟨_, s3, env3, h4, hr⟩
    · rw [hr]
      exact (wait_ready_spec h2).2.2 (sent_spec s1 tx response).2
    · rw [hr]
      exact (wait_ready_spec h4).2.2 rfl

set_option maxRecDepth 100000 in
/-- C9 at concrete runs: a reply line for `lora_cmd`, two lines for `lora_join`
and `lora_mac_tx`, and for `lora_rx` a timeout (tick limit 1) with no byte
received. -/
theorem returns_in_ready_witness :
    (∃ r, lora_cmd (lit "mac save") [] ready0 [rx (lit "ok\r")] = .ok r ∧ Ready r.1) ∧
    (∃ r, lora_join (lit "otaa") [] ready0 [rx (lit "ok\r"), rx (lit "accepted\r")] = .ok r ∧
      Ready r.2.1) ∧
    (∃ r, lora_mac_tx 1 (lit "cnf") (lit "1") (lit "48656C6C6F") [] ready0
        [rx (lit "ok\r"), rx (lit "mac_tx_ok\r")] = .ok r ∧ Ready r.2.1) ∧
    (∃ r, lora_rx (lit "0") [] (lora_tick_conf 1 ready0) [tick 3] = .ok r ∧ Ready r.2.1) :=
  ⟨⟨_, rfl, (returns_in_ready ready0 [rx (lit "ok\r")] []).1 (lit "mac save") _ rfl⟩,
   ⟨_, rfl, (returns_in_ready ready0 [rx (lit "ok\r"), rx (lit "accepted\r")] []).2.1
      (lit "otaa") _ rfl⟩,
   ⟨_, rfl, (returns_in_ready ready0 [rx (lit "ok\r"), rx (lit "mac_tx_ok\r")] []).2.2.1 1
      (lit "cnf") (lit "1") (lit "48656C6C6F") _ rfl⟩,
   ⟨_, rfl, (returns_in_ready (lora_tick_conf 1 ready0) [tick 3] []).2.2.2 (lit "0") _ rfl⟩⟩

/-! ## The timeout ticker -/

theorem ticks_unused (n : Nat) (s : LoRa) (h : s._timer_use_f = false) : ticks n s = s := by
  induction n with
  | zero => rfl
  | succ n ih =>
    have h1 : lora_tick_isr s = s := by simp [lora_tick_isr, h]
    simp only [ticks, h1]
    exact ih

/-- C10: one call of `lora_tick_isr` leaves the timeout flag set exactly when it
was set before or policing is enabled, the timer is armed and the counter value
at the time of the call is greater than the limit (so the flag is raised exactly
in that case and is otherwise unchanged). After `lora_tick_conf(0)` no number of
ticks changes the timeout flag, whatever the armed flag and the counter are. -/
theorem tick_raises_timeout_iff (s : LoRa) :
    (lora_tick_isr s)._timeout_f =
        (s._timeout_f || (s._timer_use_f && s._timer_f && decide (s._ticker > s._timer_max))) ∧
      ∀ (armed : Bool) (counter n : Nat),
        (ticks n { lora_tick_conf 0 s with _timer_f := armed, _ticker := counter })._timeout_f =
          s._timeout_f := by
  constructor
  · unfold lora_tick_isr
    by_cases h1 : s._timer_use_f = true <;> by_cases h2 : s._timer_f = true <;>
      by_cases h3 : s._ticker > s._timer_max <;> simp [h1, h2, h3]
  · intro armed counter n
    rw [ticks_unused n _ (by simp [lora_tick_conf])]
    simp [lora_tick_conf]

/-! ## The line assembler -/

theorem set_at_length (pre rest : List Byte) (r b : Byte) :
    (pre ++ r :: rest).set pre.length b = pre ++ b :: rest := by
  induction pre with
  | nil => rfl
  | cons a pre ih => simp [ih]

theorem lora_rx_isr_byte (b : Byte) (s : LoRa) (hb : b ≠ CR)
    (hn : s._rx_buffer_len < s._rx_buffer.length) (hw : s._rx_buffer_len + 1 < 2 ^ 16) :
    lora_rx_isr b s = .ok { s with
      _rx_buffer := s._rx_buffer.set s._rx_buffer_len b
      _rx_buffer_len := s._rx_buffer_len + 1 } := by
  unfold lora_rx_isr
  simp only [if_pos hn, if_neg hb, Nat.mod_eq_of_lt hw]

theorem lora_rx_isr_cr (s : LoRa) (hn : s._rx_buffer_len + 1 < s._rx_buffer.length)
    (hw : s._rx_buffer_len + 2 < 2 ^ 16) :
    lora_rx_isr CR s = .ok { s with
      _rx_buffer := (s._rx_buffer.set s._rx_buffer_len CR).set (s._rx_buffer_len + 1) 0
      _rx_buffer_len := s._rx_buffer_len + 2
      _rsp_rdy_f := true } := by
  unfold lora_rx_isr
  have h1 : s._rx_buffer_len < s._rx_buffer.length := by omega
  have h2 : s._rx_buffer_len + 1 < 2 ^ 16 := by omega
  simp only [if_pos h1, Nat.mod_eq_of_lt h2, List.length_set, if_pos hn, Nat.mod_eq_of_lt hw,
    if_true]

theorem drain_no_cr (bs : List Byte) (s : LoRa) (pre rest : List Byte)
    (hbuf : s._rx_buffer = pre ++ rest) (hpre : pre.length = s._rx_buffer_len)
    (hcr : ∀ b ∈ bs, b ≠ CR) (hfit : bs.length ≤ rest.length)
    (hw : s._rx_buffer.length < 2 ^ 16) :
    drain bs s = .ok { s with
      _rx_buffer := pre ++ bs ++ rest.drop bs.length
      _rx_buffer_len := s._rx_buffer_len + bs.length } := by
  induction bs generalizing s pre rest with
  | nil =>
    simp only [drain, List.append_nil, List.length_nil, List.drop_zero, Nat.add_zero, ← hbuf]
  | cons b bs ih =>
    cases rest with
    | nil => simp at hfit
    | cons r rest =>
      have hb : b ≠ CR := hcr b (by simp)
      have hlen : s._rx_buffer.length = pre.length + (rest.length + 1) := by
        rw [hbuf]; simp
      have h1 := lora_rx_isr_byte b s hb (by omega) (by omega)
      simp only [drain, h1]
      have h2 := ih { s with
          _rx_buffer := s._rx_buffer.set s._rx_buffer_len b
          _rx_buffer_len := s._rx_buffer_len + 1 } (pre ++ [b]) rest
        (by
          show s._rx_buffer.set s._rx_buffer_len b = pre ++ [b] ++ rest
          rw [hbuf, ← hpre, set_at_length]; simp)
        (by simp [hpre]) (fun c hc => hcr c (by simp [hc]))
        (by simpa using hfit) (by simpa using hw)
      rw [h2]
      simp [Nat.add_assoc, Nat.add_comm 1]

theorem drain_append (a b : List Byte) (s : LoRa) :
    drain (a ++ b) s =
      match drain a s with
      | .error e => .error e
      | .ok s1 => drain b s1 := by
  induction a generalizing s with
  | nil => rfl
  | cons x a ih =>
    simp only [List.cons_append, drain]
    cases lora_rx_isr x s with
    | error e => rfl
    | ok s1 => exact ih s1

theorem drain_line (t : List Byte) (s : LoRa) (hcr : ∀ b ∈ t, b ≠ CR)
    (h0 : s._rx_buffer_len = 0) (hfit : t.length + 2 ≤ s._rx_buffer.length)
    (hw : s._rx_buffer.length < 2 ^ 16) :
    drain (t ++ [CR]) s = .ok { s with
      _rx_buffer := t ++ CR :: 0 :: s._rx_buffer.drop (t.length + 2)
      _rx_buffer_len := t.length + 2
      _rsp_rdy_f := true } := by
  have h1 := drain_no_cr t s [] s._rx_buffer rfl (by simp [h0]) hcr (by omega) hw
  rw [drain_append, h1]
  simp only [drain]
  have hd : (s._rx_buffer.drop t.length).length = s._rx_buffer.length - t.length := by simp
  cases hr : s._rx_buffer.drop t.length with
  | nil => rw [hr] at hd; simp at hd; omega
  | cons r1 l =>
    cases l with
    | nil => rw [hr] at hd; simp at hd; omega
    | cons r2 tail =>
      have htail : s._rx_buffer.drop (t.length + 2) = tail := by
        have := List.drop_drop 2 t.length s._rx_buffer
        rw [hr] at this
        simp at this
        exact this.symm
      have hlen : (t ++ r1 :: r2 :: tail).length = s._rx_buffer.length := by
        rw [← hr]; simp; omega
      rw [lora_rx_isr_cr _ (by simp [h0]) (by simp [h0]; omega)]
      simp only [List.nil_append, h0, Nat.zero_add, htail]
      have e1 : (t ++ r1 :: r2 :: tail).set t.length CR = t ++ CR :: r2 :: tail :=
        set_at_length t (r2 :: tail) r1 CR
      have e2 : (t ++ CR :: r2 :: tail).set (t.length + 1) 0 = t ++ CR :: 0 :: tail := by
        have := set_at_length (t ++ [CR]) tail r2 0
        simp only [List.length_append, List.length_singleton, List.append_assoc,
          List.singleton_append] at this
        exact this
      rw [e1, e2]

theorem drain_line_cstr (t : List Byte) (s : LoRa)
    (hlen : s._rx_buffer.length = LORA_MAX_TRANSFER_SIZE) (h0 : s._rx_buffer_len = 0)
    (hnul : ∀ b ∈ t, b ≠ 0) (hcr : ∀ b ∈ t, b ≠ CR)
    (hfit : t.length + 2 ≤ LORA_MAX_TRANSFER_SIZE) :
    ∃ s1, drain (t ++ [CR]) s = .ok s1 ∧ cstr s1._rx_buffer = t ++ [CR] ∧
      s1._rx_buffer_len = t.length + 2 ∧ s1._rsp_rdy_f = true := by
  have hw : s._rx_buffer.length < 2 ^ 16 := by rw [hlen]; decide
  refine ⟨_, drain_line t s hcr h0 (by rw [hlen]; exact hfit) hw, ?_, rfl, rfl⟩
  show cstr (t ++ CR :: 0 :: s._rx_buffer.drop (t.length + 2)) = t ++ [CR]
  have := cstr_append_nul (t ++ [CR]) (s._rx_buffer.drop (t.length + 2)) (by
    intro b hb
    rcases List.mem_append.mp hb with hb | hb
    · exact hnul b hb
    · simp at hb; rw [hb]; decide)
  simpa using this

/-- C11: with room for two more bytes in the 384-byte receive buffer,
`lora_rx_isr(b)` stores `b` at index `_rx_buffer_len`; for a byte other than
carriage return the length grows by one and nothing else changes; for a
carriage return a NUL is stored at the next index, the length grows by two and
the line-ready flag is set, and nothing else changes. So a NUL-free, CR-free
string of at most 382 bytes followed by a carriage return, fed from length 0,
leaves the receive-buffer string equal to the string followed by the carriage
return. -/
theorem rx_isr_appends_and_keeps_terminator :
    (∀ (b : Byte) (s : LoRa), s._rx_buffer.length = LORA_MAX_TRANSFER_SIZE →
      s._rx_buffer_len + 2 ≤ LORA_MAX_TRANSFER_SIZE → b ≠ CR →
      lora_rx_isr b s = .ok { s with
        _rx_buffer := s._rx_buffer.set s._rx_buffer_len b
        _rx_buffer_len := s._rx_buffer_len + 1 }) ∧
    (∀ (s : LoRa), s._rx_buffer.length = LORA_MAX_TRANSFER_SIZE →
      s._rx_buffer_len + 2 ≤ LORA_MAX_TRANSFER_SIZE →
      lora_rx_isr CR s = .ok { s with
        _rx_buffer := (s._rx_buffer.set s._rx_buffer_len CR).set (s._rx_buffer_len + 1) 0
        _rx_buffer_len := s._rx_buffer_len + 2
        _rsp_rdy_f := true }) ∧
    (∀ (t : List Byte) (s : LoRa), s._rx_buffer.length = LORA_MAX_TRANSFER_SIZE →
      s._rx_buffer_len = 0 → (∀ b ∈ t, b ≠ 0) → (∀ b ∈ t, b ≠ CR) →
      t.length + 2 ≤ LORA_MAX_TRANSFER_SIZE →
      ∃ s1, drain (t ++ [CR]) s = .ok s1 ∧ cstr s1._rx_buffer = t ++ [CR]) := by
  refine ⟨?_, ?_, ?_⟩
  · intro b s hlen hn hb
    have h384 : LORA_MAX_TRANSFER_SIZE = 384 := rfl
    exact lora_rx_isr_byte b s hb (by omega) (by omega)
  · intro s hlen hn
    have h384 : LORA_MAX_TRANSFER_SIZE = 384 := rfl
    exact lora_rx_isr_cr s (by omega) (by omega)
  · intro t s hlen h0 hnul hcr hfit
    obtain ⟨s1, h1, h2, _⟩ := drain_line_cstr t s hlen h0 hnul hcr hfit
    exact ⟨s1, h1, h2⟩

set_option maxRecDepth 100000 in
/-- C11 at concrete inputs on the initialised engine: the byte `a`, a carriage
return, and the line `ok`. -/
theorem rx_isr_appends_and_keeps_terminator_witness :
    lora_rx_isr 97 ready0 = .ok { ready0 with
        _rx_buffer := ready0._rx_buffer.set ready0._rx_buffer_len 97
        _rx_buffer_len := ready0._rx_buffer_len + 1 } ∧
    lora_rx_isr CR ready0 = .ok { ready0 with
        _rx_buffer := (ready0._rx_buffer.set ready0._rx_buffer_len CR).set
          (ready0._rx_buffer_len + 1) 0
        _rx_buffer_len := ready0._rx_buffer_len + 2
        _rsp_rdy_f := true } ∧
    ∃ s1, drain (lit "ok" ++ [CR]) ready0 = .ok s1 ∧ cstr s1._rx_buffer = lit "ok" ++ [CR] :=
  ⟨rx_isr_appends_and_keeps_terminator.1 97 ready0 (by decide) (by decide) (by decide),
   rx_isr_appends_and_keeps_terminator.2.1 ready0 (by decide) (by decide),
   rx_isr_appends_and_keeps_terminator.2.2 (lit "ok") ready0 (by decide) (by decide)
     (by decide) (by decide) (by decide)⟩

theorem line_ne (t l : List Byte) (h : l.getLast? ≠ some CR) : (t ++ [CR] == l) = false := by
  rw [beq_eq_false_iff_ne]
  intro he
  apply h
  rw [← he]
  simp

/-- C16: a NUL-free, CR-free string of at most 382 bytes followed by a carriage
return, fed to `lora_rx_isr` from receive length 0 of the 384-byte buffer, gives
a receive-buffer string on which `_lora_par` and `_lora_repar` both return 0:
the retained carriage return prevents every match. -/
theorem assembled_line_classifies_zero (t : List Byte) (s : LoRa)
    (hlen : s._rx_buffer.length = LORA_MAX_TRANSFER_SIZE) (h0 : s._rx_buffer_len = 0)
    (hnul : ∀ b ∈ t, b ≠ 0) (hcr : ∀ b ∈ t, b ≠ CR) (hfit : t.length ≤ 382) :
    ∃ s1, drain (t ++ [CR]) s = .ok s1 ∧ _lora_par s1 = 0 ∧ _lora_repar s1 = 0 := by
  obtain ⟨s1, h1, h2, _⟩ := drain_line_cstr t s hlen h0 hnul hcr
    (by show t.length + 2 ≤ 384; omega)
  have key : ∀ x : String, (lit x).getLast? ≠ some CR → rx_is s1 x = false := by
    intro x hx
    unfold rx_is
    rw [h2]
    exact line_ne t _ hx
  refine ⟨s1, h1, ?_, ?_⟩
  · simp only [_lora_par, key "invalid_param" (by decide), key "not_joined" (by decide),
      key "no_free_ch" (by decide), key "silent" (by decide),
      key "frame_counter_err_rejoin_needed" (by decide), key "busy" (by decide),
      key "mac_paused" (by decide), key "invalid_data_len" (by decide),
      key "keys_not_init" (by decide)]
    simp
  · simp only [_lora_repar, key "mac_err" (by decide), key "mac_tx_ok" (by decide),
      key "mac_rx" (by decide), key "invalid_data_len" (by decide), key "radio_err" (by decide),
      key "radio_tx_ok" (by decide), key "radio_rx" (by decide), key "accepted" (by decide),
      key "denied" (by decide)]
    simp

set_option maxRecDepth 100000 in
/-- C16 at a concrete line: the bytes of `busy` and a carriage return on the
initialised engine. -/
theorem assembled_line_classifies_zero_witness :
    ∃ s1, drain (lit "busy" ++ [CR]) ready0 = .ok s1 ∧ _lora_par s1 = 0 ∧ _lora_repar s1 = 0 :=
  assembled_line_classifies_zero (lit "busy") ready0 (by decide) (by decide) (by decide)
    (by decide) (by decide)

/-! ## Timeout delivery, receive length and the join outcome -/

set_option maxRecDepth 100000 in
/-- C12, on the code: `_lora_write` resets `_rx_buffer_len` but leaves the bytes
of `_rx_buffer` in place, and the timeout path copies the buffer as a C string
without terminating it at `_rx_buffer_len`. With a tick limit of 1, a first
command answered by `ok` + CR and a second command that times out with no byte
received, the caller buffer of the second command gets `ok` + CR (not the empty
string); after a first reply `accepted` + CR and the two bytes `ab`, it gets
`abcepted` + CR (not `ab`). The engine is back in READY in both runs. -/
theorem timeout_delivers_stale_bytes :
    (∃ s, ((lora_cmd (lit "mac save") [] (lora_tick_conf 1 ready0)
          [rx (lit "ok\r"), tick 3]).bind
        fun r => lora_cmd (lit "mac save") [] r.1 r.2) = .ok (s, []) ∧
      s._rsp_buffer = some (lit "ok\r") ∧ Ready s) ∧
    (∃ s, ((lora_cmd (lit "mac save") [] (lora_tick_conf 1 ready0)
          [rx (lit "accepted\r"), { ticks := 3, bytes := lit "ab" }]).bind
        fun r => lora_cmd (lit "mac save") [] r.1 r.2) = .ok (s, []) ∧
      s._rsp_buffer = some (lit "abcepted\r") ∧ Ready s) :=
  ⟨⟨_, rfl, by decide, by decide⟩, ⟨_, rfl, by decide, by decide⟩⟩

set_option maxRecDepth 100000 in
/-- C13 as stated fails: after `lora_cmd` has returned with the reply `ok` + CR
the receive buffer length is 4, not 0. -/
theorem cmd_return_length_counterexample :
    ∃ s, lora_cmd (lit "mac save") [] ready0 [rx (lit "ok\r")] = .ok (s, []) ∧
      s._rx_buffer_len = 4 ∧ s._rx_buffer_len ≠ 0 :=
  ⟨_, rfl, by decide, by decide⟩

theorem _lora_read_len {s s1 : LoRa} (h : _lora_read s = .ok s1) :
    s1._rx_buffer_len = s._rx_buffer_len ∧ s1._rx_buffer = s._rx_buffer ∧
      s1._timeout_f = s._timeout_f := by
  unfold _lora_read at h
  simp only at h
  split at h
  · cases h
  · injection h with h
    subst h
    simp

theorem lora_process_drained {avail : List Byte} {s s1 : LoRa}
    (h : lora_process avail s = .ok s1) :
    ∃ d, drain avail s = .ok d ∧ s1._rx_buffer_len = d._rx_buffer_len ∧
      s1._rx_buffer = d._rx_buffer ∧ s1._timeout_f = d._timeout_f ∧
      (d._rsp_rdy_f = true ∨ d._timeout_f = true → Ready s1) ∧
      (d._rsp_rdy_f = false → d._timeout_f = false → s1 = d) := by
  unfold lora_process at h
  cases hd : drain avail s with
  | error e => rw [hd] at h; cases h
  | ok d =>
    rw [hd] at h
    simp only at h
    refine ⟨d, rfl, ?_⟩
    by_cases hr : d._rsp_rdy_f = true
    · rw [if_pos hr] at h
      cases h1 : _lora_read d with
      | error e => rw [h1] at h; cases h
      | ok s2 =>
        rw [h1] at h
        simp only at h
        have f1 := _lora_read_spec h1
        have g1 := _lora_read_len h1
        by_cases ht : s2._timeout_f = true
        · rw [if_pos ht] at h
          have f2 := _lora_read_spec h
          have g2 := _lora_read_len h
          exact ⟨g2.1.trans g1.1, g2.2.1.trans g1.2.1, g2.2.2.trans g1.2.2, fun _ => f2.2,
            fun h0 => by rw [hr] at h0; cases h0⟩
        · rw [if_neg ht] at h
          injection h with h
          subst h
          exact ⟨g1.1, g1.2.1, g1.2.2, fun _ => f1.2, fun h0 => by rw [hr] at h0; cases h0⟩
    · rw [if_neg hr] at h
      simp only at h
      by_cases ht : d._timeout_f = true
      · rw [if_pos ht] at h
        have f2 := _lora_read_spec h
        have g2 := _lora_read_len h
        exact ⟨g2.1, g2.2.1, g2.2.2, fun _ => f2.2, fun _ h0 => by rw [ht] at h0; cases h0⟩
      · rw [if_neg ht] at h
        injection h with h
        subst h
        refine ⟨rfl, rfl, rfl, fun h0 => ?_, fun _ _ => rfl⟩
        rcases h0 with h0 | h0
        · exact absurd h0 hr
        · exact absurd h0 ht

theorem wait_ready_of_ready (s : LoRa) (env : List Pump) (h : s._lora_rdy_f = true) :
    wait_ready s env = .ok (s, env) := by
  cases env <;> simp [wait_ready, h]

/-- C13, amended: the receive buffer length is reset to zero when a command is
written (`_lora_write`), not when the cycle completes: `_lora_read` leaves the
length as it is, so when `lora_cmd`, started on a ready engine with the 384-byte
buffer, returns after a reply line of `k` CR-free bytes plus carriage return
delivered in one pump step, the length is `k + 2`. -/
theorem rx_length_reset_on_write :
    (∀ s : LoRa, (_lora_write s)._rx_buffer_len = 0) ∧
    (∀ s s1 : LoRa, _lora_read s = .ok s1 → s1._rx_buffer_len = s._rx_buffer_len) ∧
    (∀ (cmd response t : List Byte) (s : LoRa) (r : LoRa × List Pump),
      s._lora_rdy_f = true → s._rx_buffer.length = LORA_MAX_TRANSFER_SIZE →
      (∀ b ∈ t, b ≠ CR) → t.length + 2 ≤ LORA_MAX_TRANSFER_SIZE →
      lora_cmd cmd response s [rx (t ++ [CR])] = .ok r → r.1._rx_buffer_len = t.length + 2) := by
  refine ⟨fun _ => rfl, fun s s1 h => (_lora_read_len h).1, ?_⟩
  intro cmd response t s r hr hlen hcr hfit h
  obtain ⟨s1, env1, tx, h1, _, h2⟩ := lora_cmd_steps h
  rw [wait_ready_of_ready s _ hr] at h1
  injection h1 with h1
  injection h1 with hs henv
  subst hs
  subst henv
  have hd := drain_line t (sent s tx response) hcr rfl
    (by show t.length + 2 ≤ s._rx_buffer.length; omega)
    (by show s._rx_buffer.length < 2 ^ 16; rw [hlen]; decide)
  have hnr : (sent s tx response)._lora_rdy_f = false := rfl
  simp only [wait_ready, hnr, Bool.false_eq_true, if_false] at h2
  cases hp : pump (rx (t ++ [CR])) (sent s tx response) with
  | error e => rw [hp] at h2; cases h2
  | ok s2 =>
    rw [hp] at h2
    simp only at h2
    have hp2 : lora_process (t ++ [CR]) (sent s tx response) = .ok s2 := hp
    obtain ⟨d, hd2, hl, _, _, hrdy, _⟩ := lora_process_drained hp2
    rw [hd] at hd2
    injection hd2 with hd2
    subst hd2
    have hR := hrdy (Or.inl rfl)
    rw [if_pos hR.1] at h2
    injection h2 with h2
    subst h2
    exact hl

set_option maxRecDepth 100000 in
/-- C13, amended, at concrete inputs: the reply `ok` + CR to `mac save` on the
initialised engine leaves length 4. -/
theorem rx_length_reset_on_write_witness :
    (∃ s1, _lora_read (sent ready0 (lit "mac save") []) = .ok s1 ∧
      s1._rx_buffer_len = (sent ready0 (lit "mac save") [])._rx_buffer_len) ∧
    (∃ r, lora_cmd (lit "mac save") [] ready0 [rx (lit "ok" ++ [CR])] = .ok r ∧
      r.1._rx_buffer_len = (lit "ok").length + 2) :=
  ⟨⟨_, rfl, rx_length_reset_on_write.2.1 (sent ready0 (lit "mac save") []) _ rfl⟩,
   ⟨_, rfl, rx_length_reset_on_write.2.2 (lit "mac save") [] (lit "ok") ready0 _ (by decide)
      (by decide) (by decide) (by decide) rfl⟩⟩

set_option maxRecDepth 100000 in
/-- C14 as stated fails for "every other string": with a tick limit of 1, a
first wait ended by the timeout on the bytes `xx` (immediate classification 0)
and the bytes `radio_err` received in the second wait, `lora_join` returns 14
for the receive-buffer string `radio_err`, which is none of `accepted`,
`denied`, `mac_err`. -/
theorem join_outcome_counterexample :
    ∃ s, lora_join (lit "otaa") [] (lora_tick_conf 1 ready0)
        [{ ticks := 3, bytes := lit "xx" }, rx (lit "radio_err")] = .ok (14, s, []) ∧
      cstr s._rx_buffer = lit "radio_err" :=
  ⟨_, rfl, by decide⟩

theorem lora_join_second {join_mode response : List Byte} {s s2 s3 : LoRa}
    {env env2 env3 : List Pump} (h : join_first join_mode response s env = .ok (s2, env2))
    (hp : _lora_par s2 = 0) (hw : wait_ready (_lora_resp s2) env2 = .ok (s3, env3)) :
    lora_join join_mode response s env = .ok (_lora_repar s3, s3, env3) := by
  rw [lora_join_eq, h]
  simp [Except.bind, hp, hw]

/-- C14, amended: when the immediate classification of `lora_join`'s first line
is 0, `lora_join` resets the line state, waits again and returns `_lora_repar`
of the receive-buffer string at that point: 0 for `accepted`, 18 for `denied`,
10 for `mac_err`, and also 12 for `mac_rx`, 13 for `invalid_data_len`, 14 for
`radio_err`; 0 for every other string. -/
theorem join_outcome_is_terminal_table :
    (∀ (join_mode response : List Byte) (s s2 s3 : LoRa) (env env2 env3 : List Pump),
      join_first join_mode response s env = .ok (s2, env2) → _lora_par s2 = 0 →
      wait_ready (_lora_resp s2) env2 = .ok (s3, env3) →
      lora_join join_mode response s env = .ok (_lora_repar s3, s3, env3)) ∧
    (∀ s : LoRa,
      (cstr s._rx_buffer = lit "accepted" → _lora_repar s = 0) ∧
      (cstr s._rx_buffer = lit "denied" → _lora_repar s = 18) ∧
      (cstr s._rx_buffer = lit "mac_err" → _lora_repar s = 10) ∧
      (cstr s._rx_buffer = lit "mac_rx" → _lora_repar s = 12) ∧
      (cstr s._rx_buffer = lit "invalid_data_len" → _lora_repar s = 13) ∧
      (cstr s._rx_buffer = lit "radio_err" → _lora_repar s = 14) ∧
      (cstr s._rx_buffer ∉ [lit "denied", lit "mac_err", lit "mac_rx", lit "invalid_data_len",
          lit "radio_err"] → _lora_repar s = 0)) := by
  refine ⟨?_, ?_⟩
  · intro join_mode response s s2 s3 env env2 env3 h hp hw
    exact lora_join_second h hp hw
  · intro s
    refine ⟨?_, ?_, ?_, ?_, ?_, ?_, ?_⟩
    iterate 6 (intro h; simp only [_lora_repar, rx_is, h]; decide)
    intro h
    simp only [List.mem_cons, List.mem_singleton, List.not_mem_nil, or_false, not_or] at h
    obtain ⟨h1, h2, h3, h4, h5⟩ := h
    simp [_lora_repar, rx_is, h1, h2, h3, h4, h5]

set_option maxRecDepth 100000 in
/-- C14, amended, at concrete runs: an empty first line and the second line
`accepted` give 0 (as does the second line `denied`, stored with its carriage
return); a second wait ended by a timeout on the bytes `denied` gives 18. -/
theorem join_outcome_is_terminal_table_witness :
    (∃ s, lora_join (lit "otaa") [] ready0 [rx (lit "\r"), rx (lit "accepted\r")] =
      .ok (0, s, [])) ∧
    (∃ s, lora_join (lit "otaa") [] ready0 [rx (lit "\r"), rx (lit "denied\r")] =
      .ok (0, s, [])) ∧
    (∃ s, lora_join (lit "otaa") [] (lora_tick_conf 1 ready0)
        [{ ticks := 3, bytes := lit "xx" }, rx (lit "denied")] = .ok (18, s, [])) ∧
    _lora_repar (holding (lit "accepted")) = 0 ∧ _lora_repar (holding (lit "denied")) = 18 ∧
    _lora_repar (holding (lit "mac_err")) = 10 ∧ _lora_repar (holding (lit "mac_rx")) = 12 ∧
    _lora_repar (holding (lit "invalid_data_len")) = 13 ∧
    _lora_repar (holding (lit "radio_err")) = 14 ∧ _lora_repar (holding (lit "ok")) = 0 :=
  ⟨⟨_, join_outcome_is_terminal_table.1 (lit "otaa") [] ready0 _ _
      [rx (lit "\r"), rx (lit "accepted\r")] [rx (lit "accepted\r")] [] rfl (by decide) rfl⟩,
   ⟨_, join_outcome_is_terminal_table.1 (lit "otaa") [] ready0 _ _
      [rx (lit "\r"), rx (lit "denied\r")] [rx (lit "denied\r")] [] rfl (by decide) rfl⟩,
   ⟨_, join_outcome_is_terminal_table.1 (lit "otaa") [] (lora_tick_conf 1 ready0) _ _
      [{ ticks := 3, bytes := lit "xx" }, rx (lit "denied")] [rx (lit "denied")] [] rfl
      (by decide) rfl⟩,
   (join_outcome_is_terminal_table.2 _).1 (by decide),
   (join_outcome_is_terminal_table.2 _).2.1 (by decide),
   (join_outcome_is_terminal_table.2 _).2.2.1 (by decide),
   (join_outcome_is_terminal_table.2 _).2.2.2.1 (by decide),
   (join_outcome_is_terminal_table.2 _).2.2.2.2.1 (by decide),
   (join_outcome_is_terminal_table.2 _).2.2.2.2.2.1 (by decide),
   (join_outcome_is_terminal_table.2 _).2.2.2.2.2.2 (by decide)⟩

/-- C15: both classifiers are functions of the receive-buffer string alone (and,
returning only a number, change no state): two states with the same
receive-buffer string get the same codes; a string that is not exactly one of
the nine immediate-phase strings gives 0 from `_lora_par`, and a string that is
not exactly one of the nine terminal-phase strings gives 0 from `_lora_repar`. -/
theorem classification_is_exact_match :
    (∀ s s1 : LoRa, cstr s._rx_buffer = cstr s1._rx_buffer →
      _lora_par s = _lora_par s1 ∧ _lora_repar s = _lora_repar s1) ∧
    (∀ s : LoRa, cstr s._rx_buffer ∉ [lit "invalid_param", lit "not_joined", lit "no_free_ch",
        lit "silent", lit "frame_counter_err_rejoin_needed", lit "busy", lit "mac_paused",
        lit "invalid_data_len", lit "keys_not_init"] → _lora_par s = 0) ∧
    (∀ s : LoRa, cstr s._rx_buffer ∉ [lit "mac_err", lit "mac_tx_ok", lit "mac_rx",
        lit "invalid_data_len", lit "radio_err", lit "radio_tx_ok", lit "radio_rx",
        lit "accepted", lit "denied"] → _lora_repar s = 0) := by
  refine ⟨?_, ?_, ?_⟩
  · intro s s1 h
    simp only [_lora_par, _lora_repar, rx_is, h, and_self]
  · intro s h
    simp only [List.mem_cons, List.mem_singleton, List.not_mem_nil, or_false, not_or] at h
    obtain ⟨h1, h2, h3, h4, h5, h6, h7, h8, h9⟩ := h
    simp [_lora_par, rx_is, h1, h2, h3, h4, h5, h6, h7, h8, h9]
  · intro s h
    simp only [List.mem_cons, List.mem_singleton, List.not_mem_nil, or_false, not_or] at h
    obtain ⟨h1, h2, h3, h4, h5, h6, h7, h8, h9⟩ := h
    simp [_lora_repar, rx_is, h1, h2, h3, h4, h5, h6, h7, h8, h9]

set_option maxRecDepth 100000 in
/-- C15 at concrete receive buffers: the same string in two different states,
and for each classifier a differently-cased variant, a string with a leading
and one with a trailing extra character, and the empty string. -/
theorem classification_is_exact_match_witness :
    (_lora_par (holding (lit "busy")) = _lora_par (lora_tick_conf 7 (holding (lit "busy"))) ∧
      _lora_repar (holding (lit "busy")) =
        _lora_repar (lora_tick_conf 7 (holding (lit "busy")))) ∧
    (_lora_par (holding (lit "BUSY")) = 0 ∧ _lora_par (holding (lit " busy")) = 0 ∧
      _lora_par (holding (lit "busy\r")) = 0 ∧ _lora_par (holding (lit "")) = 0) ∧
    (_lora_repar (holding (lit "Denied")) = 0 ∧ _lora_repar (holding (lit "xdenied")) = 0 ∧
      _lora_repar (holding (lit "denied\r")) = 0 ∧ _lora_repar (holding (lit "")) = 0) :=
  ⟨classification_is_exact_match.1 _ _ (by decide),
   ⟨classification_is_exact_match.2.1 _ (by decide),
    classification_is_exact_match.2.1 _ (by decide),
    classification_is_exact_match.2.1 _ (by decide),
    classification_is_exact_match.2.1 _ (by decide)⟩,
   ⟨classification_is_exact_match.2.2 _ (by decide),
    classification_is_exact_match.2.2 _ (by decide),
    classification_is_exact_match.2.2 _ (by decide),
    classification_is_exact_match.2.2 _ (by decide)⟩⟩

/-! ## The timeout flag is sticky -/

theorem lora_tick_isr_timeout (s : LoRa) (h : s._timeout_f = true) :
    (lora_tick_isr s)._timeout_f = true := by
  unfold lora_tick_isr
  simp only
  split
  · split
    · split <;> simp [h]
    · exact h
  · exact h

theorem ticks_timeout (n : Nat) (s : LoRa) (h : s._timeout_f = true) :
    (ticks n s)._timeout_f = true := by
  induction n generalizing s with
  | zero => exact h
  | succ n ih => exact ih _ (lora_tick_isr_timeout s h)

set_option maxRecDepth 100000 in
/-- C18 as stated fails: with a tick limit of 5 and a first command answered
after two ticks, `_lora_write` for the next command leaves the tick counter at
2, not 0 (the armed flag is set). -/
theorem write_keeps_ticker_counterexample :
    ∃ s, lora_cmd (lit "mac save") [] (lora_tick_conf 5 ready0)
        [{ ticks := 2, bytes := lit "ok\r" }] = .ok (s, []) ∧
      (_lora_write s)._ticker = 2 ∧ (_lora_write s)._ticker ≠ 0 ∧
      (_lora_write s)._timer_f = true :=
  ⟨_, rfl, by decide, by decide, by decide⟩

/-- C18, amended: issuing a new command arms the timer without resetting the
counter: after `_lora_write` the timer-armed flag is set and the tick counter
has the value it had before (only `lora_init` sets it to zero); completing a
response (`_lora_read`) clears the timer-armed flag. -/
theorem write_arms_read_disarms (s : LoRa) :
    (_lora_write s)._timer_f = true ∧ (_lora_write s)._ticker = s._ticker ∧
      (lora_init s)._ticker = 0 ∧ (∀ s1, _lora_read s = .ok s1 → s1._timer_f = false) :=
  ⟨rfl, rfl, rfl, fun _ h => (_lora_read_spec h).2.2.2⟩

set_option maxRecDepth 100000 in
/-- C18, amended, at a concrete state: `_lora_read` on the engine that has just
written `mac save`. -/
theorem write_arms_read_disarms_witness :
    ∃ s1, _lora_read (sent ready0 (lit "mac save") []) = .ok s1 ∧ s1._timer_f = false :=
  ⟨_, rfl, (write_arms_read_disarms (sent ready0 (lit "mac save") [])).2.2.2 _ rfl⟩

theorem ticks_add (a b : Nat) (s : LoRa) : ticks (a + b) s = ticks b (ticks a s) := by
  induction a generalizing s with
  | zero => simp [ticks]
  | succ a ih =>
    rw [Nat.add_right_comm]
    simp only [ticks]
    exact ih _

theorem ticks_count (k c limit : Nat) (s : LoRa) (hu : s._timer_use_f = true)
    (ha : s._timer_f = true) (ht : s._timeout_f = false) (hc : s._ticker = c)
    (hm : s._timer_max = limit) (hk : c + k ≤ limit + 1) (hl : limit + 1 < 2 ^ 32) :
    ticks k s = { s with _ticker := c + k } := by
  induction k generalizing s c with
  | zero =>
    simp only [ticks, Nat.add_zero, ← hc]
  | succ k ih =>
    have h1 : lora_tick_isr s = { s with _ticker := c + 1 } := by
      unfold lora_tick_isr
      have hng : ¬ s._ticker > s._timer_max := by omega
      have hmod : (s._ticker + 1) % 2 ^ 32 = c + 1 := by
        rw [hc]; exact Nat.mod_eq_of_lt (by omega)
      simp only [hu, ha, if_true, if_neg hng, hmod]
    simp only [ticks, h1]
    rw [ih (c + 1) { s with _ticker := c + 1 } hu ha ht rfl hm (by omega)]
    simp [Nat.add_assoc, Nat.add_comm 1]

/-- C19 as stated fails: with limit 1, counter 0, timer armed and the flag
clear, the flag is still clear after 2 calls of `lora_tick_isr` (it is set by
the third). -/
theorem tick_limit_counterexample :
    (ticks 2 { lora_tick_conf 1 ready0 with
        _ticker := 0, _timer_f := true, _timeout_f := false })._timeout_f = false ∧
      (ticks 3 { lora_tick_conf 1 ready0 with
        _ticker := 0, _timer_f := true, _timeout_f := false })._timeout_f = true := by
  decide

/-- C19, amended: for every limit `L` with `1 ≤ L < 2^32 - 1`, after
`lora_tick_conf(L)`, starting with the counter at 0, the timer armed and the
timeout flag clear, the flag is still clear after `L + 1` calls of
`lora_tick_isr` (and after any smaller number) and is set after the
`(L + 2)`-th call, the first that finds the counter greater than `L`. -/
theorem tick_limit_fires_after (limit : Nat) (s : LoRa) (h1 : 1 ≤ limit)
    (h2 : limit < 2 ^ 32 - 1) :
    (∀ k, k ≤ limit + 1 → (ticks k { lora_tick_conf limit s with
        _ticker := 0, _timer_f := true, _timeout_f := false })._timeout_f = false) ∧
      (ticks (limit + 2) { lora_tick_conf limit s with
        _ticker := 0, _timer_f := true, _timeout_f := false })._timeout_f = true := by
  have hne : limit ≠ 0 := by omega
  have hu : (lora_tick_conf limit s)._timer_use_f = true := by simp [lora_tick_conf, hne]
  have hm : (lora_tick_conf limit s)._timer_max = limit := by simp [lora_tick_conf, hne]
  have key : ∀ k, k ≤ limit + 1 → ticks k { lora_tick_conf limit s with
      _ticker := 0, _timer_f := true, _timeout_f := false } =
      { lora_tick_conf limit s with _ticker := 0 + k, _timer_f := true, _timeout_f := false } := by
    intro k hk
    exact ticks_count k 0 limit _ hu rfl rfl rfl hm (by omega) (by omega)
  constructor
  · intro k hk
    rw [key k hk]
  · rw [show limit + 2 = (limit + 1) + 1 from rfl, ticks_add, key (limit + 1) (Nat.le_refl _)]
    simp [ticks, lora_tick_isr, hu, hm]

/-- C19, amended, for the limit 3: clear after 4 calls, set after 5. -/
theorem tick_limit_fires_after_witness :
    (ticks 4 { lora_tick_conf 3 ready0 with
        _ticker := 0, _timer_f := true, _timeout_f := false })._timeout_f = false ∧
      (ticks (3 + 2) { lora_tick_conf 3 ready0 with
        _ticker := 0, _timer_f := true, _timeout_f := false })._timeout_f = true :=
  ⟨(tick_limit_fires_after 3 ready0 (by decide) (by decide)).1 4 (by decide),
   (tick_limit_fires_after 3 ready0 (by decide) (by decide)).2⟩

/-! ## When the engine becomes ready -/

theorem lora_rx_isr_view {b : Byte} {s s1 : LoRa} (h : lora_rx_isr b s = .ok s1) :
    timer_view s1 = timer_view s ∧ (b ≠ CR → s1._rsp_rdy_f = s._rsp_rdy_f) := by
  unfold lora_rx_isr at h
  simp only at h
  split at h
  · split at h
    · rename_i hb
      split at h
      · injection h with h
        subst h
        exact ⟨rfl, fun hn => absurd hb hn⟩
      · cases h
    · injection h with h
      subst h
      exact ⟨rfl, fun _ => rfl⟩
  · cases h

theorem drain_view {bs : List Byte} {s d : LoRa} (h : drain bs s = .ok d) :
    timer_view d = timer_view s ∧ ((∀ b ∈ bs, b ≠ CR) → d._rsp_rdy_f = s._rsp_rdy_f) := by
  induction bs generalizing s with
  | nil =>
    simp only [drain] at h
    injection h with h
    subst h
    exact ⟨rfl, fun _ => rfl⟩
  | cons b bs ih =>
    simp only [drain] at h
    cases hb : lora_rx_isr b s with
    | error e => rw [hb] at h; cases h
    | ok s2 =>
      rw [hb] at h
      have h1 := lora_rx_isr_view hb
      have h2 := ih h
      refine ⟨h2.1.trans h1.1, fun hcr => ?_⟩
      exact (h2.2 (fun c hc => hcr c (by simp [hc]))).trans (h1.2 (hcr b (by simp)))

theorem lora_tick_isr_view {s s1 : LoRa} (h : timer_view s = timer_view s1) :
    timer_view (lora_tick_isr s) = timer_view (lora_tick_isr s1) := by
  simp only [timer_view, Prod.mk.injEq] at h
  obtain ⟨h1, h2, h3, h4, h5⟩ := h
  unfold lora_tick_isr
  simp only [h1, h2, h3, h4]
  split
  · split
    · split <;> simp [timer_view, h1, h2, h3, h4, h5]
    · simp [timer_view, h1, h2, h3, h4, h5]
  · simp [timer_view, h1, h2, h3, h4, h5]

theorem ticks_view (n : Nat) {s s1 : LoRa} (h : timer_view s = timer_view s1) :
    timer_view (ticks n s) = timer_view (ticks n s1) := by
  induction n generalizing s s1 with
  | zero => exact h
  | succ n ih => exact ih (lora_tick_isr_view h)

theorem view_timeout {s s1 : LoRa} (h : timer_view s = timer_view s1) :
    s._timeout_f = s1._timeout_f := by
  simp only [timer_view, Prod.mk.injEq] at h
  exact h.2.2.2.2

theorem ticks_timeout_false (a b : Nat) (s : LoRa) (h : (ticks (a + b) s)._timeout_f = false) :
    (ticks a s)._timeout_f = false := by
  cases ht : (ticks a s)._timeout_f with
  | false => rfl
  | true =>
    rw [ticks_add, ticks_timeout b _ ht] at h
    cases h

theorem wait_ready_never (env : List Pump) (s : LoRa) (hr : s._lora_rdy_f = false)
    (hl : s._rsp_rdy_f = false) (hcr : ∀ ev ∈ env, ∀ b ∈ ev.bytes, b ≠ CR)
    (ht : (ticks (total_ticks env) s)._timeout_f = false) (r : LoRa × List Pump) :
    wait_ready s env ≠ .ok r := by
  induction env generalizing s with
  | nil =>
    intro hw
    simp only [wait_ready, hr, Bool.false_eq_true, if_false] at hw
    cases hp : pump quiet s with
    | error e => rw [hp] at hw; cases hw
    | ok s1 =>
      rw [hp] at hw
      simp only at hw
      have hp2 : lora_process [] s = .ok s1 := hp
      obtain ⟨d, hd, _, _, _, _, hsame⟩ := lora_process_drained hp2
      simp only [drain] at hd
      injection hd with hd
      subst hd
      have hs : s1 = s := hsame hl ht
      rw [hs, hr] at hw
      simp at hw
  | cons ev rest ih =>
    intro hw
    simp only [wait_ready, hr, Bool.false_eq_true, if_false] at hw
    cases hp : pump ev s with
    | error e => rw [hp] at hw; cases hw
    | ok s1 =>
      rw [hp] at hw
      simp only at hw
      have hp2 : lora_process ev.bytes (ticks ev.ticks s) = .ok s1 := hp
      obtain ⟨d, hd, _, _, _, _, hsame⟩ := lora_process_drained hp2
      have hv := drain_view hd
      have hf := drain_frame hd
      have tf := ticks_frame ev.ticks s
      have ht1 : (ticks ev.ticks s)._timeout_f = false :=
        ticks_timeout_false ev.ticks (total_ticks rest) s ht
      have hdl : d._rsp_rdy_f = false :=
        (hv.2 (hcr ev (by simp))).trans (tf.2.2.1.trans hl)
      have hdt : d._timeout_f = false := (view_timeout hv.1).trans ht1
      have hs : s1 = d := hsame hdl hdt
      subst hs
      have hr1 : s1._lora_rdy_f = false := hf.2.1.trans (tf.2.1.trans hr)
      have ht2 : (ticks (total_ticks rest) s1)._timeout_f = false := by
        rw [view_timeout (ticks_view (total_ticks rest) hv.1), ← ticks_add]
        exact ht
      exact ih s1 hr1 hdl (fun e he => hcr e (by simp [he])) ht2 hw

/-- C20: for a pump step (`lora_process`) started with the ready flag clear, the
ready flag is set afterwards exactly when, after the available bytes have been
drained into the line assembler, the line-ready flag or the timeout flag is
set. Hence a wait loop started not ready with no line pending never exits on a
schedule that holds no carriage return and whose ticks do not raise the
timeout flag. -/
theorem ready_iff_line_or_timeout :
    (∀ (avail : List Byte) (s s1 d : LoRa), s._lora_rdy_f = false →
      lora_process avail s = .ok s1 → drain avail s = .ok d →
      (s1._lora_rdy_f = true ↔ (d._rsp_rdy_f = true ∨ d._timeout_f = true))) ∧
    (∀ (env : List Pump) (s : LoRa) (r : LoRa × List Pump), s._lora_rdy_f = false →
      s._rsp_rdy_f = false → (∀ ev ∈ env, ∀ b ∈ ev.bytes, b ≠ CR) →
      (ticks (total_ticks env) s)._timeout_f = false → wait_ready s env ≠ .ok r) := by
  refine ⟨?_, ?_⟩
  · intro avail s s1 d hr hp hd
    obtain ⟨d1, hd1, _, _, _, hrdy, hsame⟩ := lora_process_drained hp
    rw [hd] at hd1
    injection hd1 with hd1
    subst hd1
    constructor
    · intro h1
      by_cases hl : d._rsp_rdy_f = true
      · exact Or.inl hl
      · by_cases ht : d._timeout_f = true
        · exact Or.inr ht
        · have hs := hsame (by simpa using hl) (by simpa using ht)
          rw [hs, (drain_frame hd).2.1, hr] at h1
          cases h1
    · intro h1
      exact (hrdy h1).1
  · intro env s r hr hl hcr ht
    exact wait_ready_never env s hr hl hcr ht r

set_option maxRecDepth 100000 in
/-- C20 at concrete inputs, on the engine that has just written `mac save` with
a tick limit of 5: a pump step with the bytes `ok` and no carriage return
leaves it not ready, one with `ok` + CR makes it ready, and the wait loop does
not exit on two pump steps with bytes but no carriage return and three ticks
in all. -/
theorem ready_iff_line_or_timeout_witness :
    (∃ s1 d, lora_process (lit "ok") (sent (lora_tick_conf 5 ready0) (lit "mac save") []) =
        .ok s1 ∧
      drain (lit "ok") (sent (lora_tick_conf 5 ready0) (lit "mac save") []) = .ok d ∧
      s1._lora_rdy_f = false ∧ d._rsp_rdy_f = false ∧ d._timeout_f = false ∧
      (s1._lora_rdy_f = true ↔ (d._rsp_rdy_f = true ∨ d._timeout_f = true))) ∧
    (∃ s1 d, lora_process (lit "ok\r") (sent (lora_tick_conf 5 ready0) (lit "mac save") []) =
        .ok s1 ∧
      drain (lit "ok\r") (sent (lora_tick_conf 5 ready0) (lit "mac save") []) = .ok d ∧
      s1._lora_rdy_f = true ∧ d._rsp_rdy_f = true ∧
      (s1._lora_rdy_f = true ↔ (d._rsp_rdy_f = true ∨ d._timeout_f = true))) ∧
    wait_ready (sent (lora_tick_conf 5 ready0) (lit "mac save") [])
        [{ ticks := 1, bytes := lit "o" }, { ticks := 2, bytes := lit "k" }] = .error .hang ∧
    wait_ready (sent (lora_tick_conf 5 ready0) (lit "mac save") [])
        [{ ticks := 1, bytes := lit "o" }, { ticks := 2, bytes := lit "k" }] ≠
      .ok (ready0, []) :=
  ⟨⟨_, _, rfl, rfl, by decide, by decide, by decide,
      ready_iff_line_or_timeout.1 (lit "ok") (sent (lora_tick_conf 5 ready0) (lit "mac save") [])
        _ _ (by decide) rfl rfl⟩,
   ⟨_, _, rfl, rfl, by decide, by decide,
      ready_iff_line_or_timeout.1 (lit "ok\r")
        (sent (lora_tick_conf 5 ready0) (lit "mac save") []) _ _ (by decide) rfl rfl⟩,
   rfl,
   ready_iff_line_or_timeout.2
      [{ ticks := 1, bytes := lit "o" }, { ticks := 2, bytes := lit "k" }]
      (sent (lora_tick_conf 5 ready0) (lit "mac save") []) (ready0, []) (by decide) (by decide)
      (by decide) (by decide)⟩

/-! ## The second-phase wait -/

theorem lora_rx_eq (window_size response : List Byte) (s : LoRa) (env : List Pump) :
    lora_rx window_size response s env =
      (rx_first window_size response s env).bind fun p =>
        if 0 = _lora_par p.1 then .ok (0, p.1, p.2)
        else (wait_ready (_lora_resp p.1) p.2).bind fun q => .ok (_lora_repar q.1, q.1, q.2) := by
  unfold lora_rx rx_first
  simp only [bind, Except.bind, pure, Except.pure, sent]
  cases wait_ready s env with
  | error e => rfl
  | ok p1 =>
    simp only
    cases strcpy p1.1._tx_buffer LORA_RADIO_RX with
    | error e => rfl
    | ok tx =>
      simp only
      cases strcat tx window_size with
      | error e => rfl
      | ok tx2 =>
        simp only

theorem join_first_ready {join_mode response : List Byte} {s s2 : LoRa} {env env2 : List Pump}
    (h : join_first join_mode response s env = .ok (s2, env2)) : Ready s2 := by
  unfold join_first at h
  simp only [bind, Except.bind] at h
  cases h1 : wait_ready s env with
  | error e => rw [h1] at h; cases h
  | ok p1 =>
    rw [h1] at h
    simp only at h
    cases h2 : strcpy p1.1._tx_buffer LORA_JOIN with
    | error e => rw [h2] at h; cases h
    | ok tx =>
      rw [h2] at h
      simp only at h
      cases h3 : strcat tx join_mode with
      | error e => rw [h3] at h; cases h
      | ok tx2 =>
        rw [h3] at h
        exact (wait_ready_spec h).2.2 (sent_spec _ _ _).2

theorem rx_first_ready {window_size response : List Byte} {s s2 : LoRa} {env env2 : List Pump}
    (h : rx_first window_size response s env = .ok (s2, env2)) : Ready s2 := by
  unfold rx_first at h
  simp only [bind, Except.bind] at h
  cases h1 : wait_ready s env with
  | error e => rw [h1] at h; cases h
  | ok p1 =>
    rw [h1] at h
    simp only at h
    cases h2 : strcpy p1.1._tx_buffer LORA_RADIO_RX with
    | error e => rw [h2] at h; cases h
    | ok tx =>
      rw [h2] at h
      simp only at h
      cases h3 : strcat tx window_size with
      | error e => rw [h3] at h; cases h
      | ok tx2 =>
        rw [h3] at h
        exact (wait_ready_spec h).2.2 (sent_spec _ _ _).2

theorem mac_tx_first_ready {payload port_no buffer response : List Byte} {s s2 : LoRa}
    {env env2 : List Pump}
    (h : mac_tx_first payload port_no buffer response s env = .ok (s2, env2)) : Ready s2 := by
  unfold mac_tx_first at h
  simp only [bind, Except.bind] at h
  cases h1 : wait_ready s env with
  | error e => rw [h1] at h; cases h
  | ok p1 =>
    rw [h1] at h
    simp only at h
    cases h2 : strcpy p1.1._tx_buffer LORA_MAC_TX with
    | error e => rw [h2] at h; cases h
    | ok t0 =>
      rw [h2] at h
      simp only at h
      cases h3 : strcat t0 payload with
      | error e => rw [h3] at h; cases h
      | ok t1 =>
        rw [h3] at h
        simp only at h
        cases h4 : strcat t1 (lit " ") with
        | error e => rw [h4] at h; cases h
        | ok t2 =>
          rw [h4] at h
          simp only at h
          cases h5 : strcat t2 port_no with
          | error e => rw [h5] at h; cases h
          | ok t3 =>
            rw [h5] at h
            simp only at h
            cases h6 : strcat t3 (lit " ") with
            | error e => rw [h6] at h; cases h
            | ok t4 =>
              rw [h6] at h
              simp only at h
              cases h7 : strcat t4 buffer with
              | error e => rw [h7] at h; cases h
              | ok tx =>
                rw [h7] at h
                exact (wait_ready_spec h).2.2 (sent_spec _ _ _).2

theorem lora_tick_isr_unarmed (s : LoRa) (h : s._timer_f = false) : lora_tick_isr s = s := by
  unfold lora_tick_isr
  simp [h]

theorem ticks_unarmed (n : Nat) (s : LoRa) (h : s._timer_f = false) : ticks n s = s := by
  induction n with
  | zero => rfl
  | succ n ih =>
    simp only [ticks, lora_tick_isr_unarmed s h]
    exact ih

theorem _lora_read_ticker {s s1 : LoRa} (h : _lora_read s = .ok s1) :
    s1._ticker = s._ticker ∧ s1._timer_f = false := by
  unfold _lora_read at h
  simp only at h
  split at h
  · cases h
  · injection h with h
    subst h
    simp

theorem pump_unarmed {ev : Pump} {s s1 : LoRa} (hp : pump ev s = .ok s1)
    (ha : s._timer_f = false) :
    s1._timer_f = false ∧ s1._ticker = s._ticker ∧ s1._timeout_f = s._timeout_f := by
  unfold pump at hp
  rw [ticks_unarmed _ s ha] at hp
  obtain ⟨d, hd, _, _, ht, _, _⟩ := lora_process_drained hp
  have hv := (drain_view hd).1
  simp only [timer_view, Prod.mk.injEq] at hv
  obtain ⟨_, hv2, hv3, _, hv5⟩ := hv
  refine ⟨?_, ?_, ht.trans hv5⟩
  all_goals
    unfold lora_process at hp
    rw [hd] at hp
    simp only at hp
    by_cases hr : d._rsp_rdy_f = true
    · rw [if_pos hr] at hp
      cases h1 : _lora_read d with
      | error e => rw [h1] at hp; cases hp
      | ok s2 =>
        rw [h1] at hp
        simp only at hp
        have g1 := _lora_read_ticker h1
        by_cases hto : s2._timeout_f = true
        · rw [if_pos hto] at hp
          have g2 := _lora_read_ticker hp
          first
            | exact g2.2
            | exact g2.1.trans (g1.1.trans hv3)
        · rw [if_neg hto] at hp
          injection hp with hp
          subst hp
          first
            | exact g1.2
            | exact g1.1.trans hv3
    · rw [if_neg hr] at hp
      simp only at hp
      by_cases hto : d._timeout_f = true
      · rw [if_pos hto] at hp
        have g2 := _lora_read_ticker hp
        first
          | exact g2.2
          | exact g2.1.trans hv3
      · rw [if_neg hto] at hp
        injection hp with hp
        subst hp
        first
          | exact hv2.trans ha
          | exact hv3

theorem wait_ready_unarmed {env env1 : List Pump} {s s1 : LoRa}
    (hw : wait_ready s env = .ok (s1, env1)) (ha : s._timer_f = false) :
    s1._timer_f = false ∧ s1._ticker = s._ticker ∧ s1._timeout_f = s._timeout_f := by
  induction env generalizing s with
  | nil =>
    simp only [wait_ready] at hw
    by_cases hr : s._lora_rdy_f = true
    · rw [if_pos hr] at hw
      injection hw with hw
      injection hw with hw _
      subst hw
      exact ⟨ha, rfl, rfl⟩
    · rw [if_neg hr] at hw
      cases hp : pump quiet s with
      | error e => rw [hp] at hw; cases hw
      | ok s2 =>
        rw [hp] at hw
        simp only at hw
        split at hw
        · injection hw with hw
          injection hw with hw _
          subst hw
          exact pump_unarmed hp ha
        · cases hw
  | cons ev rest ih =>
    simp only [wait_ready] at hw
    by_cases hr : s._lora_rdy_f = true
    · rw [if_pos hr] at hw
      injection hw with hw
      injection hw with hw _
      subst hw
      exact ⟨ha, rfl, rfl⟩
    · rw [if_neg hr] at hw
      cases hp : pump ev s with
      | error e => rw [hp] at hw; cases hw
      | ok s2 =>
        rw [hp] at hw
        have f := pump_unarmed hp ha
        have g := ih hw f.1
        exact ⟨g.1, g.2.1.trans f.2.1, g.2.2.trans f.2.2⟩

theorem second_wait_needs_cr {env : List Pump} {s : LoRa} {r : LoRa × List Pump}
    (hw : wait_ready (_lora_resp s) env = .ok r) (ha : s._timer_f = false)
    (ht : s._timeout_f = false) : ∃ ev ∈ env, CR ∈ ev.bytes := by
  by_contra hn
  have hcr : ∀ ev ∈ env, ∀ b ∈ ev.bytes, b ≠ CR := by
    intro ev hev b hb hbc
    exact hn ⟨ev, hev, hbc ▸ hb⟩
  have hs : ticks (total_ticks env) (_lora_resp s) = _lora_resp s := ticks_unarmed _ _ ha
  exact wait_ready_never env (_lora_resp s) rfl rfl hcr (by rw [hs]; exact ht) r hw

theorem mac_tx_wait_first {n : Nat} {s : LoRa} {env : List Pump} {r : Nat × LoRa × List Pump}
    (h : mac_tx_wait n s env = .ok r) : wait_ready s env = .ok (r.2.1, r.2.2) := by
  cases n with
  | zero => simp [mac_tx_wait] at h
  | succ n =>
    simp only [mac_tx_wait] at h
    cases h1 : wait_ready s env with
    | error e => rw [h1] at h; cases h
    | ok p1 =>
      obtain ⟨s1, env1⟩ := p1
      rw [h1] at h
      simp only at h
      by_cases h12 : _lora_repar s1 = 12
      · rw [if_pos h12, mac_tx_wait_spin n s1 env1 (wait_ready_spec h1).2.1 h12] at h
        cases h
      · rw [if_neg h12] at h
        injection h with h
        subst h
        rfl

/-- C21: `_lora_resp` leaves the timer-armed flag as `_lora_read` left it
(false), and a tick with the timer unarmed changes nothing. So the wait that
follows `_lora_resp` in `lora_join`, `lora_mac_tx` and `lora_rx` runs unarmed:
the first phase ends with the flag clear, and when the operation returns
through its second phase the tick counter and the timeout flag are what they
were at the end of the first phase, whatever the ticks of the schedule; if the
timeout flag was clear then, a carriage return arrived in the second phase. -/
theorem second_phase_runs_unarmed :
    (∀ s s1 : LoRa, _lora_read s = .ok s1 → (_lora_resp s1)._timer_f = false) ∧
    (∀ (s : LoRa) (n : Nat), s._timer_f = false → ticks n s = s) ∧
    (∀ (mode response : List Byte) (s s2 : LoRa) (env env2 : List Pump)
      (r : Nat × LoRa × List Pump),
      join_first mode response s env = .ok (s2, env2) → _lora_par s2 = 0 →
      lora_join mode response s env = .ok r →
      s2._timer_f = false ∧ wait_ready (_lora_resp s2) env2 = .ok (r.2.1, r.2.2) ∧
        r.2.1._ticker = s2._ticker ∧ r.2.1._timeout_f = s2._timeout_f ∧
        (s2._timeout_f = false → ∃ ev ∈ env2, CR ∈ ev.bytes)) ∧
    (∀ (fuel : Nat) (payload port hex response : List Byte) (s s2 : LoRa)
      (env env2 : List Pump) (r : Nat × LoRa × List Pump),
      mac_tx_first payload port hex response s env = .ok (s2, env2) → _lora_par s2 = 0 →
      lora_mac_tx fuel payload port hex response s env = .ok r →
      s2._timer_f = false ∧ wait_ready (_lora_resp s2) env2 = .ok (r.2.1, r.2.2) ∧
        r.2.1._ticker = s2._ticker ∧ r.2.1._timeout_f = s2._timeout_f ∧
        (s2._timeout_f = false → ∃ ev ∈ env2, CR ∈ ev.bytes)) ∧
    (∀ (size response : List Byte) (s s2 : LoRa) (env env2 : List Pump)
      (r : Nat × LoRa × List Pump),
      rx_first size response s env = .ok (s2, env2) → _lora_par s2 ≠ 0 →
      lora_rx size response s env = .ok r →
      s2._timer_f = false ∧ wait_ready (_lora_resp s2) env2 = .ok (r.2.1, r.2.2) ∧
        r.2.1._ticker = s2._ticker ∧ r.2.1._timeout_f = s2._timeout_f ∧
        (s2._timeout_f = false → ∃ ev ∈ env2, CR ∈ ev.bytes)) := by
  have key : ∀ (s2 : LoRa) (env2 : List Pump) (q : LoRa × List Pump), s2._timer_f = false →
      wait_ready (_lora_resp s2) env2 = .ok q →
      s2._timer_f = false ∧ wait_ready (_lora_resp s2) env2 = .ok (q.1, q.2) ∧
        q.1._ticker = s2._ticker ∧ q.1._timeout_f = s2._timeout_f ∧
        (s2._timeout_f = false → ∃ ev ∈ env2, CR ∈ ev.bytes) := by
    intro s2 env2 q ha hw
    have hu := @wait_ready_unarmed env2 q.2 (_lora_resp s2) q.1 hw ha
    exact ⟨ha, hw, hu.2.1, hu.2.2, fun ht => second_wait_needs_cr hw ha ht⟩
  refine ⟨?_, ?_, ?_, ?_, ?_⟩
  · intro s s1 h
    exact (_lora_read_ticker h).2
  · intro s n h
    exact ticks_unarmed n s h
  · intro mode response s s2 env env2 r h1 hp hj
    rw [lora_join_eq, h1] at hj
    simp only [Except.bind, hp, ne_eq, not_true_eq_false, if_false] at hj
    cases hw : wait_ready (_lora_resp s2) env2 with
    | error e => rw [hw] at hj; cases hj
    | ok q =>
      rw [hw] at hj
      injection hj with hj
      subst hj
      have k := key s2 env2 q (join_first_ready h1).2.2 hw
      rw [hw] at k
      exact k
  · intro fuel payload port hex response s s2 env env2 r h1 hp hj
    rw [lora_mac_tx_eq, h1] at hj
    simp only [Except.bind, hp, ne_eq, not_true_eq_false, if_false] at hj
    exact key s2 env2 (r.2.1, r.2.2) (mac_tx_first_ready h1).2.2 (mac_tx_wait_first hj)
  · intro size response s s2 env env2 r h1 hp hj
    rw [lora_rx_eq, h1] at hj
    have hp2 : ¬ (0 = _lora_par s2) := fun h0 => hp h0.symm
    simp only [Except.bind, if_neg hp2] at hj
    cases hw : wait_ready (_lora_resp s2) env2 with
    | error e => rw [hw] at hj; cases hj
    | ok q =>
      rw [hw] at hj
      injection hj with hj
      subst hj
      have k := key s2 env2 q (rx_first_ready h1).2.2 hw
      rw [hw] at k
      exact k

set_option maxRecDepth 100000 in
/-- C21 at concrete runs with a tick limit of 1: after the first line, 100 ticks
pass with no byte and 50 more come with the second line; the counter and the
timeout flag do not move. For `lora_rx` the first line is `busy`, a NUL and a
carriage return, whose buffer string `busy` takes it into the second wait. -/
theorem second_phase_runs_unarmed_witness :
    (∃ s1, _lora_read (sent ready0 (lit "mac save") []) = .ok s1 ∧
      (_lora_resp s1)._timer_f = false) ∧
    ticks 100 (lora_tick_conf 1 ready0) = lora_tick_conf 1 ready0 ∧
    (∃ ev ∈ [tick 100, { ticks := 50, bytes := lit "accepted\r" }], CR ∈ ev.bytes) ∧
    (∃ s2 r, join_first (lit "otaa") [] (lora_tick_conf 1 ready0)
          [rx (lit "ok\r"), tick 100, { ticks := 50, bytes := lit "accepted\r" }] =
        .ok (s2, [tick 100, { ticks := 50, bytes := lit "accepted\r" }]) ∧
      lora_join (lit "otaa") [] (lora_tick_conf 1 ready0)
          [rx (lit "ok\r"), tick 100, { ticks := 50, bytes := lit "accepted\r" }] = .ok r ∧
      s2._timeout_f = false ∧ s2._timer_f = false ∧ r.2.1._ticker = s2._ticker ∧
      r.2.1._timeout_f = s2._timeout_f) ∧
    (∃ s2 r, mac_tx_first (lit "cnf") (lit "1") (lit "48") [] (lora_tick_conf 1 ready0)
          [rx (lit "ok\r"), tick 100, { ticks := 50, bytes := lit "mac_tx_ok\r" }] =
        .ok (s2, [tick 100, { ticks := 50, bytes := lit "mac_tx_ok\r" }]) ∧
      lora_mac_tx 1 (lit "cnf") (lit "1") (lit "48") [] (lora_tick_conf 1 ready0)
          [rx (lit "ok\r"), tick 100, { ticks := 50, bytes := lit "mac_tx_ok\r" }] = .ok r ∧
      s2._timeout_f = false ∧ s2._timer_f = false ∧ r.2.1._ticker = s2._ticker ∧
      r.2.1._timeout_f = s2._timeout_f) ∧
    (∃ s2 r, rx_first (lit "0") [] (lora_tick_conf 1 ready0)
          [rx (lit "busy" ++ [0, CR]), tick 100, { ticks := 50, bytes := lit "ok\r" }] =
        .ok (s2, [tick 100, { ticks := 50, bytes := lit "ok\r" }]) ∧
      lora_rx (lit "0") [] (lora_tick_conf 1 ready0)
          [rx (lit "busy" ++ [0, CR]), tick 100, { ticks := 50, bytes := lit "ok\r" }] = .ok r ∧
      s2._timeout_f = false ∧ s2._timer_f = false ∧ r.2.1._ticker = s2._ticker ∧
      r.2.1._timeout_f = s2._timeout_f) :=
  ⟨⟨_, rfl, second_phase_runs_unarmed.1 (sent ready0 (lit "mac save") []) _ rfl⟩,
   second_phase_runs_unarmed.2.1 (lora_tick_conf 1 ready0) 100 (by decide),
   (second_phase_runs_unarmed.2.2.1 (lit "otaa") [] (lora_tick_conf 1 ready0)
      ((join_first (lit "otaa") [] (lora_tick_conf 1 ready0)
        [rx (lit "ok\r"), tick 100, { ticks := 50, bytes := lit "accepted\r" }]).toOption.elim
          ready0 (fun p => p.1))
      [rx (lit "ok\r"), tick 100, { ticks := 50, bytes := lit "accepted\r" }]
      [tick 100, { ticks := 50, bytes := lit "accepted\r" }]
      ((lora_join (lit "otaa") [] (lora_tick_conf 1 ready0)
        [rx (lit "ok\r"), tick 100, { ticks := 50, bytes := lit "accepted\r" }]).toOption.elim
          (0, ready0, []) (fun p => p))
      rfl (by decide) rfl).2.2.2.2 (by decide),
   ⟨_, _, rfl, rfl, by decide,
      (second_phase_runs_unarmed.2.2.1 (lit "otaa") [] (lora_tick_conf 1 ready0) _
        [rx (lit "ok\r"), tick 100, { ticks := 50, bytes := lit "accepted\r" }]
        [tick 100, { ticks := 50, bytes := lit "accepted\r" }] _ rfl (by decide) rfl).1,
      (second_phase_runs_unarmed.2.2.1 (lit "otaa") [] (lora_tick_conf 1 ready0) _
        [rx (lit "ok\r"), tick 100, { ticks := 50, bytes := lit "accepted\r" }]
        [tick 100, { ticks := 50, bytes := lit "accepted\r" }] _ rfl (by decide) rfl).2.2.1,
      (second_phase_runs_unarmed.2.2.1 (lit "otaa") [] (lora_tick_conf 1 ready0) _
        [rx (lit "ok\r"), tick 100, { ticks := 50, bytes := lit "accepted\r" }]
        [tick 100, { ticks := 50, bytes := lit "accepted\r" }] _ rfl (by decide)
        rfl).2.2.2.1⟩,
   ⟨_, _, rfl, rfl, by decide,
      (second_phase_runs_unarmed.2.2.2.1 1 (lit "cnf") (lit "1") (lit "48") []
        (lora_tick_conf 1 ready0) _
        [rx (lit "ok\r"), tick 100, { ticks := 50, bytes := lit "mac_tx_ok\r" }]
        [tick 100, { ticks := 50, bytes := lit "mac_tx_ok\r" }] _ rfl (by decide) rfl).1,
      (second_phase_runs_unarmed.2.2.2.1 1 (lit "cnf") (lit "1") (lit "48") []
        (lora_tick_conf 1 ready0) _
        [rx (lit "ok\r"), tick 100, { ticks := 50, bytes := lit "mac_tx_ok\r" }]
        [tick 100, { ticks := 50, bytes := lit "mac_tx_ok\r" }] _ rfl (by decide) rfl).2.2.1,
      (second_phase_runs_unarmed.2.2.2.1 1 (lit "cnf") (lit "1") (lit "48") []
        (lora_tick_conf 1 ready0) _
        [rx (lit "ok\r"), tick 100, { ticks := 50, bytes := lit "mac_tx_ok\r" }]
        [tick 100, { ticks := 50, bytes := lit "mac_tx_ok\r" }] _ rfl (by decide)
        rfl).2.2.2.1⟩,
   ⟨_, _, rfl, rfl, by decide,
      (second_phase_runs_unarmed.2.2.2.2 (lit "0") [] (lora_tick_conf 1 ready0) _
        [rx (lit "busy" ++ [0, CR]), tick 100, { ticks := 50, bytes := lit "ok\r" }]
        [tick 100, { ticks := 50, bytes := lit "ok\r" }] _ rfl (by decide) rfl).1,
      (second_phase_runs_unarmed.2.2.2.2 (lit "0") [] (lora_tick_conf 1 ready0) _
        [rx (lit "busy" ++ [0, CR]), tick 100, { ticks := 50, bytes := lit "ok\r" }]
        [tick 100, { ticks := 50, bytes := lit "ok\r" }] _ rfl (by decide) rfl).2.2.1,
      (second_phase_runs_unarmed.2.2.2.2 (lit "0") [] (lora_tick_conf 1 ready0) _
        [rx (lit "busy" ++ [0, CR]), tick 100, { ticks := 50, bytes := lit "ok\r" }]
        [tick 100, { ticks := 50, bytes := lit "ok\r" }] _ rfl (by decide) rfl).2.2.2.1⟩⟩

/-! ## The single-shot radio transmit -/

theorem lora_rx_isr_err {b : Byte} {s : LoRa} {e : Stop} (h : lora_rx_isr b s = .error e) :
    e = .fault := by
  unfold lora_rx_isr at h
  simp only at h
  split at h
  · split at h
    · split at h
      · cases h
      · injection h with h; exact h.symm
    · cases h
  · injection h with h; exact h.symm

theorem drain_err {bs : List Byte} {s : LoRa} {e : Stop} (h : drain bs s = .error e) :
    e = .fault := by
  induction bs generalizing s with
  | nil => simp [drain] at h
  | cons b bs ih =>
    simp only [drain] at h
    cases hb : lora_rx_isr b s with
    | error e1 =>
      rw [hb] at h
      injection h with h
      subst h
      exact lora_rx_isr_err hb
    | ok s1 =>
      rw [hb] at h
      exact ih h

theorem _lora_read_err {s : LoRa} {e : Stop} (h : _lora_read s = .error e) : e = .fault := by
  unfold _lora_read at h
  simp only at h
  split at h
  · rename_i e1 hc
    injection h with h
    subst h
    split at hc
    · split at hc
      · injection hc with hc; exact hc.symm
      · cases hc
    · cases hc
  · cases h

theorem pump_err {ev : Pump} {s : LoRa} {e : Stop} (h : pump ev s = .error e) : e = .fault := by
  unfold pump lora_process at h
  cases hd : drain ev.bytes (ticks ev.ticks s) with
  | error e1 =>
    rw [hd] at h
    injection h with h
    subst h
    exact drain_err hd
  | ok d =>
    rw [hd] at h
    simp only at h
    by_cases hr : d._rsp_rdy_f = true
    · rw [if_pos hr] at h
      cases h1 : _lora_read d with
      | error e1 =>
        rw [h1] at h
        injection h with h
        subst h
        exact _lora_read_err h1
      | ok s2 =>
        rw [h1] at h
        simp only at h
        split at h
        · exact _lora_read_err h
        · cases h
    · rw [if_neg hr] at h
      simp only at h
      split at h
      · exact _lora_read_err h
      · cases h

theorem strcpy_err {dst src : List Byte} {e : Stop} (h : strcpy dst src = .error e) :
    e = .fault := by
  unfold strcpy at h
  simp only at h
  split at h
  · cases h
  · injection h with h; exact h.symm

theorem strcat_err {dst src : List Byte} {e : Stop} (h : strcat dst src = .error e) :
    e = .fault := by
  unfold strcat at h
  simp only at h
  split at h
  · cases h
  · injection h with h; exact h.symm

theorem lora_tx_err {buffer : List Byte} {s : LoRa} {env : List Pump} {e : Stop}
    (h : lora_tx buffer s env = .error e) : e = .fault := by
  unfold lora_tx at h
  simp only [bind, Except.bind, pure, Except.pure] at h
  cases h1 : pump (next_pump env).1 s with
  | error e1 => rw [h1] at h; injection h with h; subst h; exact pump_err h1
  | ok s1 =>
    rw [h1] at h
    simp only at h
    cases h2 : strcpy s1._tx_buffer LORA_RADIO_TX with
    | error e1 => rw [h2] at h; injection h with h; subst h; exact strcpy_err h2
    | ok tx =>
      rw [h2] at h
      simp only at h
      cases h3 : strcat tx buffer with
      | error e1 => rw [h3] at h; injection h with h; subst h; exact strcat_err h3
      | ok tx2 =>
        rw [h3] at h
        simp only at h
        cases h4 : pump (next_pump (next_pump env).2).1 (_lora_write { s1 with _tx_buffer := tx2 })
          with
        | error e1 => rw [h4] at h; injection h with h; subst h; exact pump_err h4
        | ok s4 =>
          rw [h4] at h
          simp only at h
          split at h
          · cases h
          · cases h5 : pump (next_pump (next_pump (next_pump env).2).2).1 (_lora_resp s4) with
            | error e1 => rw [h5] at h; injection h with h; subst h; exact pump_err h5
            | ok s5 => rw [h5] at h; cases h

theorem ticks_rx_buffer (n : Nat) (s : LoRa) : (ticks n s)._rx_buffer = s._rx_buffer := by
  induction n generalizing s with
  | zero => rfl
  | succ n ih =>
    simp only [ticks]
    rw [ih]
    unfold lora_tick_isr
    simp only
    split
    · split
      · split <;> rfl
      · rfl
    · rfl

theorem pump_no_bytes {ev : Pump} {s s1 : LoRa} (hp : pump ev s = .ok s1)
    (hb : ev.bytes = []) : s1._rx_buffer = s._rx_buffer := by
  unfold pump at hp
  rw [hb] at hp
  obtain ⟨d, hd, _, hbuf, _⟩ := lora_process_drained hp
  simp only [drain] at hd
  injection hd with hd
  subst hd
  rw [hbuf, ticks_rx_buffer]

theorem pump_idle {ev : Pump} {s : LoRa} (hb : ev.bytes = []) (hl : s._rsp_rdy_f = false)
    (ht : (ticks ev.ticks s)._timeout_f = false) : pump ev s = .ok (ticks ev.ticks s) := by
  have h1 : (ticks ev.ticks s)._rsp_rdy_f = false := (ticks_frame ev.ticks s).2.2.1.trans hl
  simp [pump, lora_process, hb, drain, h1, ht]

theorem classify_congr {s s1 : LoRa} (h : s1._rx_buffer = s._rx_buffer) :
    _lora_par s1 = _lora_par s ∧ _lora_repar s1 = _lora_repar s := by
  simp only [_lora_par, _lora_repar, rx_is, h, and_self]

theorem radio_tx_fits (dst hex : List Byte)
    (h : LORA_RADIO_TX.length + (cstr hex).length + 1 ≤ dst.length) :
    ∃ t0 tx, strcpy dst LORA_RADIO_TX = .ok t0 ∧ strcat t0 hex = .ok tx := by
  have hc : cstr LORA_RADIO_TX = LORA_RADIO_TX := by decide
  have h9 : LORA_RADIO_TX.length = 9 := by decide
  have h1 : (cstr LORA_RADIO_TX).length + 1 ≤ dst.length := by rw [hc]; omega
  have hcpy : strcpy dst LORA_RADIO_TX =
      .ok (cstr LORA_RADIO_TX ++ 0 :: dst.drop ((cstr LORA_RADIO_TX).length + 1)) := by
    unfold strcpy
    simp only [if_pos h1]
  have hc2 : cstr (cstr LORA_RADIO_TX ++ 0 :: dst.drop ((cstr LORA_RADIO_TX).length + 1)) =
      LORA_RADIO_TX := by
    rw [cstr_append_nul _ _ (cstr_no_nul _), hc]
  have hlen : (cstr LORA_RADIO_TX ++ 0 :: dst.drop ((cstr LORA_RADIO_TX).length + 1)).length =
      dst.length := by
    simp only [List.length_append, List.length_cons, List.length_drop]
    omega
  have hcat : strcat (cstr LORA_RADIO_TX ++ 0 :: dst.drop ((cstr LORA_RADIO_TX).length + 1)) hex =
      .ok (LORA_RADIO_TX ++ cstr hex ++ 0 ::
        (cstr LORA_RADIO_TX ++ 0 :: dst.drop ((cstr LORA_RADIO_TX).length + 1)).drop
          (LORA_RADIO_TX.length + (cstr hex).length + 1)) := by
    unfold strcat
    simp only [hc2, hlen, if_pos h]
  exact ⟨_, _, hcpy, hcat⟩

theorem lora_tx_idle (hex : List Byte) (s s1 : LoRa) (env : List Pump)
    (hb1 : (next_pump env).1.bytes = [])
    (hb2 : (next_pump (next_pump env).2).1.bytes = [])
    (hb3 : (next_pump (next_pump (next_pump env).2).2).1.bytes = [])
    (hp1 : pump (next_pump env).1 s = .ok s1)
    (hfit : LORA_RADIO_TX.length + (cstr hex).length + 1 ≤ s1._tx_buffer.length)
    (ht : (ticks ((next_pump (next_pump env).2).1.ticks +
      (next_pump (next_pump (next_pump env).2).2).1.ticks) (_lora_write s1))._timeout_f = false) :
    ∃ r, lora_tx hex s env = .ok r ∧ r.2.1._lora_rdy_f = false ∧
      r.2.1._rx_buffer = s._rx_buffer ∧
      ((_lora_par s ≠ 0 ∧ r.1 = _lora_par s ∧ r.2.2 = (next_pump (next_pump env).2).2) ∨
        (_lora_par s = 0 ∧ r.1 = _lora_repar s ∧
          r.2.2 = (next_pump (next_pump (next_pump env).2).2).2)) := by
  obtain ⟨t0, tx, hcpy, hcat⟩ := radio_tx_fits s1._tx_buffer hex hfit
  have hview : timer_view (_lora_write { s1 with _tx_buffer := tx }) =
      timer_view (_lora_write s1) := rfl
  have ht' : (ticks ((next_pump (next_pump env).2).1.ticks +
      (next_pump (next_pump (next_pump env).2).2).1.ticks)
        (_lora_write { s1 with _tx_buffer := tx }))._timeout_f = false := by
    rw [view_timeout (ticks_view _ hview)]
    exact ht
  have ht2 := ticks_timeout_false _ _ _ ht'
  have hp2 := @pump_idle _ (_lora_write { s1 with _tx_buffer := tx }) hb2 rfl ht2
  have hbuf1 : s1._rx_buffer = s._rx_buffer := pump_no_bytes hp1 hb1
  have hbuf2 : (ticks (next_pump (next_pump env).2).1.ticks
      (_lora_write { s1 with _tx_buffer := tx }))._rx_buffer = s._rx_buffer := by
    rw [ticks_rx_buffer]
    exact hbuf1
  have hrdy2 : (ticks (next_pump (next_pump env).2).1.ticks
      (_lora_write { s1 with _tx_buffer := tx }))._lora_rdy_f = false :=
    (ticks_frame _ _).2.1
  have hc2 := classify_congr hbuf2
  have hview3 : timer_view (_lora_resp (ticks (next_pump (next_pump env).2).1.ticks
      (_lora_write { s1 with _tx_buffer := tx }))) =
      timer_view (ticks (next_pump (next_pump env).2).1.ticks
        (_lora_write { s1 with _tx_buffer := tx })) := rfl
  have ht3 : (ticks (next_pump (next_pump (next_pump env).2).2).1.ticks
      (_lora_resp (ticks (next_pump (next_pump env).2).1.ticks
        (_lora_write { s1 with _tx_buffer := tx }))))._timeout_f = false := by
    rw [view_timeout (ticks_view _ hview3), ← ticks_add]
    exact ht'
  have hp3 := @pump_idle _ (_lora_resp (ticks (next_pump (next_pump env).2).1.ticks
    (_lora_write { s1 with _tx_buffer := tx }))) hb3 rfl ht3
  have hbuf3 : (ticks (next_pump (next_pump (next_pump env).2).2).1.ticks
      (_lora_resp (ticks (next_pump (next_pump env).2).1.ticks
        (_lora_write { s1 with _tx_buffer := tx }))))._rx_buffer = s._rx_buffer := by
    rw [ticks_rx_buffer]
    exact hbuf2
  have hrdy3 : (ticks (next_pump (next_pump (next_pump env).2).2).1.ticks
      (_lora_resp (ticks (next_pump (next_pump env).2).1.ticks
        (_lora_write { s1 with _tx_buffer := tx }))))._lora_rdy_f = false :=
    (ticks_frame _ _).2.1
  have hc3 := classify_congr hbuf3
  by_cases hpar : _lora_par s = 0
  · have hres : lora_tx hex s env = .ok
        (_lora_repar (ticks (next_pump (next_pump (next_pump env).2).2).1.ticks
          (_lora_resp (ticks (next_pump (next_pump env).2).1.ticks
            (_lora_write { s1 with _tx_buffer := tx })))),
          ticks (next_pump (next_pump (next_pump env).2).2).1.ticks
            (_lora_resp (ticks (next_pump (next_pump env).2).1.ticks
              (_lora_write { s1 with _tx_buffer := tx }))),
          (next_pump (next_pump (next_pump env).2).2).2) := by
      unfold lora_tx
      simp only [bind, Except.bind, pure, Except.pure, hp1, hcpy, hcat, hp2, hc2.1, hpar, ne_eq,
        not_true_eq_false, if_false, hp3]
    exact ⟨_, hres, hrdy3, hbuf3, Or.inr ⟨hpar, hc3.2, rfl⟩⟩
  · have hres : lora_tx hex s env = .ok
        (_lora_par s, ticks (next_pump (next_pump env).2).1.ticks
          (_lora_write { s1 with _tx_buffer := tx }), (next_pump (next_pump env).2).2) := by
      unfold lora_tx
      simp only [bind, Except.bind, pure, Except.pure, hp1, hcpy, hcat, hp2, hc2.1, ne_eq, hpar,
        not_false_eq_true, if_true]
    exact ⟨_, hres, hrdy2, hbuf2, Or.inl ⟨hpar, rfl, rfl⟩⟩

theorem next_pump_drop (env : List Pump) : (next_pump env).2 = env.drop 1 := by
  cases env <;> rfl

theorem next_pump_no_bytes (env : List Pump) (k : Nat) (h : ∀ ev ∈ env, ev.bytes = []) :
    (next_pump (env.drop k)).1.bytes = [] := by
  cases hd : env.drop k with
  | nil => rfl
  | cons ev rest =>
    have : ev ∈ env.drop k := by rw [hd]; simp
    exact h ev (List.mem_of_mem_drop this)

/-- Structure of `lora_tx`: it has no wait loop, so it never hangs (it returns, or
stops at a fault), and when it returns it has made one pump step before writing, exactly
one between `_lora_write` and the immediate classification and, when that is 0,
exactly one between `_lora_resp` and the terminal classification, so it used
two or three events of the schedule. When no event of the schedule carries a
byte, the text fits and the ticks do not raise the timeout flag, it returns with
the ready flag still clear, the receive buffer as it was before the call, and
the classification of that buffer as its result. -/
theorem lora_tx_single_shot :
    (∀ (hex : List Byte) (s : LoRa) (env : List Pump) (e : Stop),
      lora_tx hex s env = .error e → e = .fault) ∧
    (∀ (hex : List Byte) (s : LoRa) (env : List Pump) (r : Nat × LoRa × List Pump),
      lora_tx hex s env = .ok r →
      ∃ s1 tx s2, pump (next_pump env).1 s = .ok s1 ∧ cstr tx = LORA_RADIO_TX ++ cstr hex ∧
        pump (next_pump (env.drop 1)).1 (_lora_write { s1 with _tx_buffer := tx }) = .ok s2 ∧
        ((_lora_par s2 ≠ 0 ∧ r = (_lora_par s2, s2, env.drop 2)) ∨
          (_lora_par s2 = 0 ∧ ∃ s3, pump (next_pump (env.drop 2)).1 (_lora_resp s2) = .ok s3 ∧
            r = (_lora_repar s3, s3, env.drop 3)))) ∧
    (∀ (hex : List Byte) (s s1 : LoRa) (env : List Pump), (∀ ev ∈ env, ev.bytes = []) →
      pump (next_pump env).1 s = .ok s1 →
      LORA_RADIO_TX.length + (cstr hex).length + 1 ≤ s1._tx_buffer.length →
      (ticks ((next_pump (env.drop 1)).1.ticks + (next_pump (env.drop 2)).1.ticks)
        (_lora_write s1))._timeout_f = false →
      ∃ r, lora_tx hex s env = .ok r ∧ r.2.1._lora_rdy_f = false ∧
        r.2.1._rx_buffer = s._rx_buffer ∧
        ((_lora_par s ≠ 0 ∧ r.1 = _lora_par s ∧ r.2.2 = env.drop 2) ∨
          (_lora_par s = 0 ∧ r.1 = _lora_repar s ∧ r.2.2 = env.drop 3))) := by
  have d1 : ∀ env : List Pump, (next_pump env).2 = env.drop 1 := next_pump_drop
  have d2 : ∀ env : List Pump, (env.drop 1).drop 1 = env.drop 2 := by
    intro env
    rw [List.drop_drop]
  have d3 : ∀ env : List Pump, (env.drop 2).drop 1 = env.drop 3 := by
    intro env
    rw [List.drop_drop]
  refine ⟨?_, ?_, ?_⟩
  · intro hex s env e h
    exact lora_tx_err h
  · intro hex s env r h
    have hs := lora_tx_steps h
    simp only [d1, d2, d3] at hs
    exact hs
  · intro hex s s1 env hb hp1 hfit ht
    have hi := lora_tx_idle hex s s1 env
    simp only [d1, d2, d3] at hi
    exact hi (next_pump_no_bytes env 0 hb) (next_pump_no_bytes env 1 hb)
      (next_pump_no_bytes env 2 hb) hp1 hfit ht

set_option maxRecDepth 100000 in
/-- Runs of `lora_tx`: on the initialised engine with a silent transport and
two ticks `lora_tx` returns 0 with the ready flag clear; with the receive buffer
holding `busy` from before the call it returns 6; a text of 400 bytes does not
fit and is a fault; and when the reply arrives
only with the fourth event it has already returned, leaving that event unused. -/
theorem lora_tx_single_shot_witness :
    (∃ e, lora_tx (List.replicate 400 65) ready0 [] = .error e ∧ e = .fault) ∧
    (∃ r, lora_tx (lit "48") ready0 [tick 1, tick 1] = .ok r ∧ r.2.1._lora_rdy_f = false ∧
      r.2.1._rx_buffer = ready0._rx_buffer ∧
      ((_lora_par ready0 ≠ 0 ∧ r.1 = _lora_par ready0 ∧ r.2.2 = [tick 1, tick 1].drop 2) ∨
        (_lora_par ready0 = 0 ∧ r.1 = _lora_repar ready0 ∧ r.2.2 = [tick 1, tick 1].drop 3))) ∧
    (∃ r, lora_tx (lit "48") (holding (lit "busy")) [] = .ok r ∧ r.2.1._lora_rdy_f = false ∧
      r.2.1._rx_buffer = (holding (lit "busy"))._rx_buffer ∧
      ((_lora_par (holding (lit "busy")) ≠ 0 ∧ r.1 = _lora_par (holding (lit "busy")) ∧
          r.2.2 = ([] : List Pump).drop 2) ∨
        (_lora_par (holding (lit "busy")) = 0 ∧ r.1 = _lora_repar (holding (lit "busy")) ∧
          r.2.2 = ([] : List Pump).drop 3))) ∧
    (∃ r, lora_tx (lit "48") ready0 [quiet, quiet, quiet, rx (lit "radio_tx_ok\r")] = .ok r ∧
      r.2.2 = [rx (lit "radio_tx_ok\r")] ∧
      ∃ s1 tx s2, pump (next_pump [quiet, quiet, quiet, rx (lit "radio_tx_ok\r")]).1 ready0 =
          .ok s1 ∧ cstr tx = LORA_RADIO_TX ++ cstr (lit "48") ∧
        pump (next_pump ([quiet, quiet, quiet, rx (lit "radio_tx_ok\r")].drop 1)).1
          (_lora_write { s1 with _tx_buffer := tx }) = .ok s2 ∧
        ((_lora_par s2 ≠ 0 ∧
            r = (_lora_par s2, s2, [quiet, quiet, quiet, rx (lit "radio_tx_ok\r")].drop 2)) ∨
          (_lora_par s2 = 0 ∧ ∃ s3,
            pump (next_pump ([quiet, quiet, quiet, rx (lit "radio_tx_ok\r")].drop 2)).1
              (_lora_resp s2) = .ok s3 ∧
            r = (_lora_repar s3, s3,
              [quiet, quiet, quiet, rx (lit "radio_tx_ok\r")].drop 3)))) :=
  ⟨⟨_, rfl, lora_tx_single_shot.1 (List.replicate 400 65) ready0 [] _ rfl⟩,
   lora_tx_single_shot.2.2 (lit "48") ready0 ready0 [tick 1, tick 1] (by decide) rfl
      (by decide) (by decide),
   lora_tx_single_shot.2.2 (lit "48") (holding (lit "busy")) (holding (lit "busy")) []
      (by decide) rfl (by decide) (by decide),
   ⟨_, rfl, rfl, lora_tx_single_shot.2.1 (lit "48") ready0
      [quiet, quiet, quiet, rx (lit "radio_tx_ok\r")] _ rfl⟩⟩

/-! ## Trimming a reply -/

theorem cstr_split (s : List Byte) (h : 0 ∈ s) : ∃ rest, s = cstr s ++ 0 :: rest := by
  induction s with
  | nil => simp at h
  | cons a s ih =>
    by_cases ha : a = 0
    · subst ha
      exact ⟨s, by simp [cstr]⟩
    · have hs : 0 ∈ s := by
        rcases List.mem_cons.mp h with h1 | h1
        · exact absurd h1.symm ha
        · exact h1
      obtain ⟨rest, hr⟩ := ih hs
      refine ⟨rest, ?_⟩
      have hb : (a != 0) = true := by simpa using ha
      have : cstr (a :: s) = a :: cstr s := by
        simp only [cstr]
        rw [List.takeWhile_cons, hb]
        simp
      rw [this, List.cons_append, ← hr]

theorem dropWhile_before_nul (p : Byte → Bool) (h0 : p 0 = false) (t rest : List Byte) :
    (t ++ 0 :: rest).dropWhile p = t.dropWhile p ++ 0 :: rest := by
  induction t with
  | nil => simp [List.dropWhile_cons, h0]
  | cons a t ih =>
    by_cases ha : p a = true
    · simp only [List.cons_append, List.dropWhile_cons, ha, if_true]
      exact ih
    · simp [List.dropWhile_cons, ha]

theorem dropWhile_head (p : Byte → Bool) (l : List Byte) (c : Byte) (rest : List Byte)
    (h : l.dropWhile p = c :: rest) : p c = false := by
  induction l with
  | nil => simp at h
  | cons a l ih =>
    by_cases ha : p a = true
    · simp only [List.dropWhile_cons, ha, if_true] at h
      exact ih h
    · simp only [List.dropWhile_cons, ha] at h
      injection h with h1 _
      rw [← h1]
      simpa using ha

theorem dropWhile_mem (p : Byte → Bool) (l : List Byte) : ∀ b ∈ l.dropWhile p, b ∈ l := by
  induction l with
  | nil => simp
  | cons a l ih =>
    intro b hb
    by_cases ha : p a = true
    · simp only [List.dropWhile_cons, ha, if_true] at hb
      exact List.mem_cons_of_mem _ (ih b hb)
    · simp only [List.dropWhile_cons, ha] at hb
      exact hb

theorem rdropWhile_mem (p : Byte → Bool) (l : List Byte) : ∀ b ∈ l.rdropWhile p, b ∈ l := by
  induction l using List.reverseRecOn with
  | nil => simp
  | append_singleton l a ih =>
    intro b hb
    by_cases ha : p a = true
    · rw [List.rdropWhile_concat_pos _ _ _ ha] at hb
      exact List.mem_append_left _ (ih b hb)
    · rw [List.rdropWhile_concat_neg _ _ _ ha] at hb
      exact hb

theorem getD_at_length (t r : List Byte) (a d : Byte) : (t ++ a :: r).getD t.length d = a := by
  induction t with
  | nil => rfl
  | cons b t ih =>
    simp only [List.cons_append, List.length_cons, List.getD_cons_succ]
    exact ih

theorem rtrim_scan_eq (p : Byte → Bool) (t r : List Byte) :
    rtrim_scan p (t ++ r) t.length =
      if t.rdropWhile p = [] then none else some ((t.rdropWhile p).length - 1) := by
  induction t using List.reverseRecOn generalizing r with
  | nil => simp [rtrim_scan]
  | append_singleton t a ih =>
    have hget : (t ++ [a] ++ r).getD t.length 0 = a := by
      rw [List.append_assoc]
      exact getD_at_length t r a 0
    rw [List.length_append, List.length_singleton]
    by_cases ha : p a = true
    · simp only [rtrim_scan, hget, ha, if_true, List.rdropWhile_concat_pos _ _ _ ha]
      rw [List.append_assoc]
      exact ih _
    · simp only [rtrim_scan, hget, ha, List.rdropWhile_concat_neg _ _ _ ha]
      simp

theorem set_after_rdropWhile (p : Byte → Bool) (t : List Byte) (x : Byte) (r : List Byte) :
    ∃ y, (t ++ x :: r).set (t.rdropWhile p).length 0 = t.rdropWhile p ++ 0 :: y := by
  induction t using List.reverseRecOn generalizing x r with
  | nil => exact ⟨r, by simp⟩
  | append_singleton t a ih =>
    by_cases ha : p a = true
    · rw [List.rdropWhile_concat_pos _ _ _ ha, List.append_assoc]
      exact ih a (x :: r)
    · rw [List.rdropWhile_concat_neg _ _ _ ha]
      exact ⟨r, set_at_length (t ++ [a]) r x 0⟩

theorem rdropWhile_length_le (p : Byte → Bool) (l : List Byte) :
    (l.rdropWhile p).length ≤ l.length := by
  induction l using List.reverseRecOn with
  | nil => simp
  | append_singleton l a ih =>
    by_cases ha : p a = true
    · rw [List.rdropWhile_concat_pos _ _ _ ha, List.length_append]
      omega
    · rw [List.rdropWhile_concat_neg _ _ _ ha]

theorem rtrim_after_ltrim (p : Byte → Bool) (t rest : List Byte) (hnul : ∀ b ∈ t, b ≠ 0)
    (hhead : ∀ c t1, t = c :: t1 → p c = false) :
    (∃ y, rtrim p (t ++ 0 :: rest) = .ok (t.rdropWhile p ++ 0 :: y)) ∧
      (t ≠ [] → ∃ back, rtrim_scan p (t ++ 0 :: rest) t.length = some back ∧
        back < t.length) := by
  have hc : cstr (t ++ 0 :: rest) = t := cstr_append_nul t rest hnul
  cases t with
  | nil =>
    refine ⟨⟨rest, ?_⟩, fun h => absurd rfl h⟩
    unfold rtrim
    rw [hc]
    rfl
  | cons c t1 =>
    have hpc : p c = false := hhead c t1 rfl
    have hne : (c :: t1).rdropWhile p ≠ [] := by
      intro he
      have := (List.rdropWhile_eq_nil_iff.mp he) c (by simp)
      rw [hpc] at this
      cases this
    have hpos : 0 < ((c :: t1).rdropWhile p).length := List.length_pos.mpr hne
    have hle := rdropWhile_length_le p (c :: t1)
    have hscan := rtrim_scan_eq p (c :: t1) (0 :: rest)
    rw [if_neg hne] at hscan
    constructor
    · obtain ⟨y, hy⟩ := set_after_rdropWhile p (c :: t1) 0 rest
      refine ⟨y, ?_⟩
      unfold rtrim
      simp only [hc, hscan]
      have h1 : (c :: t1).length ≠ 0 := by simp
      rw [if_neg h1]
      have h2 : ((c :: t1).rdropWhile p).length - 1 + 1 = ((c :: t1).rdropWhile p).length := by
        omega
      simp only [h2, hy]
    · intro _
      exact ⟨_, hscan, by omega⟩

theorem trim_core (p : Byte → Bool) (s : List Byte) (h0 : p 0 = false) (hnul : 0 ∈ s) :
    (∃ y, trim p s = .ok (between_non_space p (cstr s) ++ 0 :: y)) ∧
      (∀ c t1, cstr (ltrim p s) = c :: t1 → p c = false) ∧
      (cstr (ltrim p s) ≠ [] → ∃ back,
        rtrim_scan p (ltrim p s) (cstr (ltrim p s)).length = some back ∧
        back < (cstr (ltrim p s)).length) := by
  obtain ⟨rest, hs⟩ := cstr_split s hnul
  have hl : ltrim p s = (cstr s).dropWhile p ++ 0 :: rest := by
    unfold ltrim
    conv_lhs => rw [hs]
    exact dropWhile_before_nul p h0 _ _
  have hfree : ∀ b ∈ (cstr s).dropWhile p, b ≠ 0 := fun b hb =>
    cstr_no_nul s b (dropWhile_mem p _ b hb)
  have hcl : cstr (ltrim p s) = (cstr s).dropWhile p := by
    rw [hl]
    exact cstr_append_nul _ _ hfree
  have hhead : ∀ c t1, (cstr s).dropWhile p = c :: t1 → p c = false := fun c t1 h =>
    dropWhile_head p _ c t1 h
  have hr := rtrim_after_ltrim p ((cstr s).dropWhile p) rest hfree hhead
  refine ⟨?_, ?_, ?_⟩
  · unfold trim
    rw [hl]
    exact hr.1
  · rw [hcl]
    exact hhead
  · rw [hcl, hl]
    exact hr.2

theorem rdropWhile_cons_head (p : Byte → Bool) (c : Byte) (l : List Byte) :
    (c :: l).rdropWhile p = [] ∨ ∃ l1, (c :: l).rdropWhile p = c :: l1 := by
  induction l using List.reverseRecOn with
  | nil =>
    rw [List.rdropWhile_singleton]
    by_cases hc : p c = true
    · exact Or.inl (by simp [hc])
    · exact Or.inr ⟨[], by simp [hc]⟩
  | append_singleton l a ih =>
    rw [← List.cons_append]
    by_cases ha : p a = true
    · rw [List.rdropWhile_concat_pos _ _ _ ha]
      exact ih
    · rw [List.rdropWhile_concat_neg _ _ _ ha]
      exact Or.inr ⟨l ++ [a], rfl⟩

theorem between_non_space_idem (p : Byte → Bool) (t : List Byte) :
    between_non_space p (between_non_space p t) = between_non_space p t := by
  unfold between_non_space
  have h1 : ((t.dropWhile p).rdropWhile p).dropWhile p = (t.dropWhile p).rdropWhile p := by
    cases hd : t.dropWhile p with
    | nil => simp
    | cons c t1 =>
      have hpc : p c = false := dropWhile_head p t c t1 hd
      rcases rdropWhile_cons_head p c t1 with h | ⟨l1, h⟩
      · rw [h]
        rfl
      · rw [h]
        simp [List.dropWhile_cons, hpc]
  rw [h1, List.rdropWhile_idempotent]

/-- C23: for every NUL-terminated string `s` (and any whitespace classifier for
which NUL is not whitespace), `trim` returns, without fault, the substring of
`s` from its first to its last non-whitespace character, the empty string when
`s` is empty or all whitespace, and applying `trim` to the result gives the same
string. Within `trim` the string passed to `rtrim` is empty or begins with a
non-whitespace character, so when it is not empty the backward scan of `rtrim`
stops at an index inside it. -/
theorem trim_is_between_non_space (isspace : Byte → Bool) (s : List Byte)
    (h0 : isspace 0 = false) (hnul : 0 ∈ s) :
    ∃ m1, trim isspace s = .ok m1 ∧
      cstr m1 = between_non_space isspace (cstr s) ∧
      ((∀ c ∈ cstr s, isspace c = true) → cstr m1 = []) ∧
      (∃ m2, trim isspace m1 = .ok m2 ∧ cstr m2 = cstr m1) ∧
      (cstr (ltrim isspace s) = [] ∨
        ∃ c t1, cstr (ltrim isspace s) = c :: t1 ∧ isspace c = false) ∧
      (cstr (ltrim isspace s) ≠ [] → ∃ back,
        rtrim_scan isspace (ltrim isspace s) (cstr (ltrim isspace s)).length = some back ∧
        back < (cstr (ltrim isspace s)).length) := by
  have hfree : ∀ (t : List Byte), (∀ b ∈ t, b ≠ 0) →
      ∀ b ∈ between_non_space isspace t, b ≠ 0 := by
    intro t ht b hb
    exact ht b (dropWhile_mem isspace t b (rdropWhile_mem isspace _ b hb))
  obtain ⟨⟨y, hy⟩, hhead, hscan⟩ := trim_core isspace s h0 hnul
  have hc1 : cstr (between_non_space isspace (cstr s) ++ 0 :: y) =
      between_non_space isspace (cstr s) :=
    cstr_append_nul _ _ (hfree _ (cstr_no_nul s))
  refine ⟨_, hy, hc1, ?_, ?_, ?_, hscan⟩
  · intro hall
    rw [hc1]
    unfold between_non_space
    have : (cstr s).dropWhile isspace = [] := List.dropWhile_eq_nil_iff.mpr hall
    rw [this]
    simp
  · obtain ⟨⟨y2, hy2⟩, _, _⟩ := trim_core isspace
      (between_non_space isspace (cstr s) ++ 0 :: y) h0 (by simp)
    refine ⟨_, hy2, ?_⟩
    rw [hc1, between_non_space_idem] at hy2 ⊢
    exact cstr_append_nul _ _ (hfree _ (cstr_no_nul s))
  · cases hd : cstr (ltrim isspace s) with
    | nil => exact Or.inl rfl
    | cons c t1 => exact Or.inr ⟨c, t1, rfl, hhead c t1 hd⟩

/-- C23 on the reply buffer `  accepted` + CR + LF + NUL (followed by two more
bytes) with the C-locale `isspace`: the result is `accepted`, and trimming it
again leaves it. -/
theorem trim_is_between_non_space_witness :
    ∃ m1, trim isspace_C (lit "  accepted\r\n" ++ [0, 7, 7]) = .ok m1 ∧
      cstr m1 = lit "accepted" ∧ ∃ m2, trim isspace_C m1 = .ok m2 ∧ cstr m2 = cstr m1 :=
  match trim_is_between_non_space isspace_C (lit "  accepted\r\n" ++ [0, 7, 7]) (by decide)
    (by decide) with
  | ⟨m1, h1, h2, _, h4, _, _⟩ => ⟨m1, h1, h2.trans (by decide), h4⟩

/-! ## Progress: a reply line makes a command operation return -/

set_option maxRecDepth 100000 in
/-- C22, on the code: `lora_tx` has no `response` parameter and never sets
`_rsp_buffer`, which is still the null pointer after `lora_init()`, while its
`_lora_write` sets `_rsp_f`; a line or a timeout delivered during the call makes
`_lora_read` do `strcpy(_rsp_buffer, _rx_buffer)` through that null pointer.
On the initialised engine `lora_tx("48")` does not return when the reply `ok` +
CR arrives at its second pump step, nor when it arrives at its third, nor when
the tick limit of 1 is passed with no byte received: each run stops at a fault.
It does return (0, ready flag still clear, command line written) when the
transport stays silent, and once an earlier `lora_cmd` has set `_rsp_buffer` a
reply at the second pump step is copied to that buffer and `lora_tx` returns 0. -/
theorem lora_tx_null_response_fault :
    ready0._rsp_buffer = none ∧
    lora_tx (lit "48") ready0 [quiet, rx (lit "ok\r")] = .error .fault ∧
    lora_tx (lit "48") ready0 [quiet, quiet, rx (lit "ok\r")] = .error .fault ∧
    lora_tx (lit "48") (lora_tick_conf 1 ready0) [quiet, tick 3] = .error .fault ∧
    (∃ s, lora_tx (lit "48") ready0 [] = .ok (0, s, []) ∧ s._lora_rdy_f = false ∧
      s.uart_tx = ready0.uart_tx ++ (lit "radio tx 48" ++ [CR, LF])) ∧
    configured._rsp_buffer = some (lit "ok\r") ∧
    (∃ s, lora_tx (lit "48") configured [quiet, rx (lit "radio_tx_ok\r")] = .ok (0, s, []) ∧
      s._rsp_buffer = some (lit "radio_tx_ok\r")) :=
  ⟨rfl, rfl, rfl, rfl, ⟨_, rfl, by decide, by decide⟩, by decide, ⟨_, rfl, by decide⟩⟩

end LoRaDriver
